import Mathlib

/-!
Verification development for the tutorial-generation service.

The definitions below are a shallow embedding of the four source files:
the create/read API (`pages/api/tutorial.ts`), the image pipeline stage
(Pollinations handler), and the audio pipeline stage (Fish TTS handler).
External capabilities (HTTP fetch, image generation, TTS, S3 upload,
JSON.parse, cheerio text extraction) are modelled as outcome oracles
passed in as function parameters; everything else is translated from the
source control flow.
-/

set_option maxHeartbeats 1000000
set_option maxRecDepth 8000

namespace Tutorialize

/-- One step's materialized content (`FrameData` in the viewer): narration
text plus optional image and audio artifact URLs. -/
structure Frame where
  text : String
  imageUrl : Option String
  audioUrl : Option String
deriving DecidableEq, Repr

/-- A field-level partial frame, as passed to `updateFrame`; `none` means
the field is absent from the update object. -/
structure FramePatch where
  text : Option String
  imageUrl : Option String
  audioUrl : Option String
deriving DecidableEq, Repr

/-- Modelled from the spec: `updateFrame` performs a field-level upsert, so a
field present in the patch overwrites and an absent field is kept. -/
def Frame.merge (f : Frame) (p : FramePatch) : Frame where
  text := match p.text with | some t => t | none => f.text
  imageUrl := match p.imageUrl with | some u => some u | none => f.imageUrl
  audioUrl := match p.audioUrl with | some u => some u | none => f.audioUrl

/-- Frame produced when a patch is merged into a missing slot. -/
def emptyFrame : Frame := ⟨"", none, none⟩

/-- A session: storyboard steps (key/text pairs in object insertion order),
the sparse frame list, and the recorded request parameters. -/
structure Session where
  steps : List (String × String)
  frames : List (Option Frame)
  url : String
  style : String
deriving DecidableEq, Repr

/-- Extend a frame list with empty (absent) slots up to length `n`. -/
def padTo (fl : List (Option Frame)) (n : Nat) : List (Option Frame) :=
  fl ++ List.replicate (n - fl.length) none

/-- Modelled from the spec: `SessionStore.updateFrame(id, index, partialFrame)`
merges the patch into `frames[index]`, creating the slot (and padding any
missing slots before it) if absent. The session-storage module itself is not
among the provided sources; this follows section 4.1 of the specification. -/
def Session.updateFrame (s : Session) (i : Nat) (p : FramePatch) : Session :=
  let fl := padTo s.frames (i + 1)
  let base := (fl.getD i none).getD emptyFrame
  { s with frames := fl.set i (some (base.merge p)) }

/-- The in-memory session registry, keyed by session id. -/
abbrev Store := List (String × Session)

/-- Modelled from the spec: `SessionStore.get` returns the current session for
an id, or absent. -/
def getSession (st : Store) (id : String) : Option Session :=
  (st.find? (fun e => e.1 == id)).map (fun e => e.2)

/-- Modelled from the spec: `SessionStore.create` registers a new session. -/
def createSession (st : Store) (id : String) (s : Session) : Store :=
  (id, s) :: st

/-- Replace the session stored under `id` (used to write a stage's final
session state back into the store). -/
def setSession (st : Store) (id : String) (s : Session) : Store :=
  st.map (fun e => if e.1 = id then (id, s) else e)

/-- Lexicographic comparison of character lists by code point, the order the
default JavaScript `Array.sort()` uses on strings (identical to code-unit
order on the ASCII step keys involved here). -/
def charListLe : List Char → List Char → Bool
  | [], _ => true
  | _ :: _, [] => false
  | a :: as, b :: bs =>
    if a.toNat < b.toNat then true
    else if b.toNat < a.toNat then false
    else charListLe as bs

/-- Lexicographic comparison of strings. -/
def strLe (a b : String) : Bool := charListLe a.toList b.toList

/-- `Object.keys(storyboard).sort()`: storyboard keys in lexicographic order. -/
def sortedKeys (sb : List (String × String)) : List String :=
  List.insertionSort (fun a b => strLe a b = true) (sb.map Prod.fst)

/-- `storyboard[key]`: the text recorded for a storyboard key. -/
def lookupD (sb : List (String × String)) (k : String) : String :=
  match sb.find? (fun p => p.1 == k) with
  | some p => p.2
  | none => ""

/-- Outcome of one image-generation attempt: success, or a failure whose
message is classified as rate-limit or not (`message.includes('rate limit')
|| message.includes('429')` in the source). -/
inductive GenOutcome where
  | ok : GenOutcome
  | err (rateLimit : Bool) : GenOutcome
deriving DecidableEq, Repr

/-- Result of the per-step retry loop of the image stage. -/
inductive StepGenResult where
  | success : StepGenResult
  | skipped : StepGenResult
  | rateLimited : StepGenResult
deriving DecidableEq, Repr

/-- The image stage's `for (let attempt = 0; attempt < 3; attempt++)` retry
loop: a success breaks out, a rate-limit classified failure aborts the stage,
and a third plain failure gives up on the step. -/
def imageGenAttempts (gen : Nat → GenOutcome) : StepGenResult :=
  match gen 0 with
  | .ok => .success
  | .err true => .rateLimited
  | .err false =>
    match gen 1 with
    | .ok => .success
    | .err true => .rateLimited
    | .err false =>
      match gen 2 with
      | .ok => .success
      | .err true => .rateLimited
      | .err false => .skipped

/-- Public URL of an uploaded artifact:
`https://BUCKET.s3.amazonaws.com/SESSION/frameN.EXT`. -/
def s3Url (bucket sid : String) (i : Nat) (ext : String) : String :=
  "https://" ++ bucket ++ ".s3.amazonaws.com/" ++ sid ++ "/frame" ++
    toString (i + 1) ++ "." ++ ext

/-- Image-stage pre-initialization loop: every sorted step writes its text
into the frame at its index before any artifact is attempted. -/
def preInitImage (sb : List (String × String)) (ks : List (Nat × String))
    (s : Session) : Session :=
  ks.foldl (fun acc ik => acc.updateFrame ik.1 ⟨some (lookupD sb ik.2), none, none⟩) s

/-- Whether step `i` of the image stage produces an artifact: generation
succeeded within three attempts and the S3 upload succeeded. -/
def imageStepOk (gen : Nat → Nat → GenOutcome) (upl : Nat → Bool) (i : Nat) : Bool :=
  (imageGenAttempts (gen i) == .success) && upl i

/-- Main loop of the image stage over the (index, key) pairs of the sorted
storyboard keys. A rate-limit classified failure sets the loop counter past
the end (`i = frameKeys.length`), abandoning all remaining steps; an exhausted
retry or a failed upload just moves to the next step. -/
def imageStageSteps (gen : Nat → Nat → GenOutcome) (upl : Nat → Bool)
    (bucket sid : String) (sb : List (String × String)) :
    List (Nat × String) → Session → List String → Session × List String
  | [], s, acc => (s, acc)
  | ik :: rest, s, acc =>
    let i := ik.1
    let description := lookupD sb ik.2
    match imageGenAttempts (gen i) with
    | .rateLimited => (s, acc)
    | .skipped => imageStageSteps gen upl bucket sid sb rest s acc
    | .success =>
      if upl i then
        let publicUrl := s3Url bucket sid i "png"
        imageStageSteps gen upl bucket sid sb rest
          (s.updateFrame i ⟨some description, some publicUrl, none⟩)
          (acc ++ [publicUrl])
      else
        imageStageSteps gen upl bucket sid sb rest s acc

/-- The whole try-block of the image-stage handler: sort the keys,
pre-initialize every frame with its text, then run the generation loop. -/
def runImageStage (gen : Nat → Nat → GenOutcome) (upl : Nat → Bool)
    (bucket sid : String) (s : Session) : Session × List String :=
  let ks := (sortedKeys s.steps).enum
  let s1 := preInitImage s.steps ks s
  imageStageSteps gen upl bucket sid s.steps ks s1 []

/-- Outcome of one Fish TTS call: ok, or a non-ok response with error text. -/
inductive TtsOutcome where
  | ok : TtsOutcome
  | err (msg : String) : TtsOutcome
deriving DecidableEq, Repr

/-- Boolean view of a TTS outcome. -/
def ttsOk : TtsOutcome → Bool
  | .ok => true
  | .err _ => false

/-- Whether step `i` of the audio stage produces an artifact: the single TTS
call succeeded and the S3 upload succeeded. -/
def audioStepOk (tts : Nat → TtsOutcome) (upl : Nat → Bool) (i : Nat) : Bool :=
  ttsOk (tts i) && upl i

/-- Audio-stage pre-initialization loop: ensure a frame slot exists with the
step text, but only when the slot is still absent. -/
def preInitAudio (sb : List (String × String)) (ks : List (Nat × String))
    (s : Session) : Session :=
  ks.foldl (fun acc ik =>
    match acc.frames.getD ik.1 none with
    | some _ => acc
    | none => acc.updateFrame ik.1 ⟨some (lookupD sb ik.2), none, none⟩) s

/-- Main loop of the audio stage: one TTS call per step (no retry), a failed
call or a failed upload skips just that step, and a success spreads the
existing frame and overwrites `audioUrl` and `text`. -/
def audioStageSteps (tts : Nat → TtsOutcome) (upl : Nat → Bool)
    (bucket sid : String) (sb : List (String × String)) :
    List (Nat × String) → Session → List String → Session × List String
  | [], s, acc => (s, acc)
  | ik :: rest, s, acc =>
    let i := ik.1
    let text := lookupD sb ik.2
    match tts i with
    | .err _ => audioStageSteps tts upl bucket sid sb rest s acc
    | .ok =>
      if upl i then
        let publicUrl := s3Url bucket sid i "mp3"
        let existing := (s.frames.getD i none).getD ⟨text, none, none⟩
        audioStageSteps tts upl bucket sid sb rest
          (s.updateFrame i ⟨some text, existing.imageUrl, some publicUrl⟩)
          (acc ++ [publicUrl])
      else
        audioStageSteps tts upl bucket sid sb rest s acc

/-- The whole try-block of the audio-stage handler. -/
def runAudioStage (tts : Nat → TtsOutcome) (upl : Nat → Bool)
    (bucket sid : String) (s : Session) : Session × List String :=
  let ks := (sortedKeys s.steps).enum
  let s1 := preInitAudio s.steps ks s
  audioStageSteps tts upl bucket sid s.steps ks s1 []

/-- HTTP-level result of a pipeline-stage handler. -/
structure StageResult where
  status : Nat
  error : Option String
  urls : List String
  store : Store
deriving DecidableEq, Repr

/-- The image-stage API handler: method check, sessionId validation, session
lookup (400 when not found), then the stage. -/
def imageGenHandler (gen : Nat → Nat → GenOutcome) (upl : Nat → Bool)
    (bucket : String) (method : String) (sessionId : Option String)
    (st : Store) : StageResult :=
  if method ≠ "POST" then ⟨405, some "Method not allowed", [], st⟩
  else
    match sessionId with
    | none => ⟨400, some "Invalid sessionId", [], st⟩
    | some sid =>
      if sid = "" then ⟨400, some "Invalid sessionId", [], st⟩
      else
        match getSession st sid with
        | none => ⟨400, some "Session not found", [], st⟩
        | some session =>
          let r := runImageStage gen upl bucket sid session
          ⟨200, none, r.2, setSession st sid r.1⟩

/-- The audio-stage API handler, same shape as the image one. -/
def audioGenHandler (tts : Nat → TtsOutcome) (upl : Nat → Bool)
    (bucket : String) (method : String) (sessionId : Option String)
    (st : Store) : StageResult :=
  if method ≠ "POST" then ⟨405, some "Method not allowed", [], st⟩
  else
    match sessionId with
    | none => ⟨400, some "Invalid sessionId", [], st⟩
    | some sid =>
      if sid = "" then ⟨400, some "Invalid sessionId", [], st⟩
      else
        match getSession st sid with
        | none => ⟨400, some "Session not found", [], st⟩
        | some session =>
          let r := runAudioStage tts upl bucket sid session
          ⟨200, none, r.2, setSession st sid r.1⟩

/-- HTTP-level result of the GET branch of `/api/tutorial`. -/
structure GetResult where
  status : Nat
  error : Option String
  session : Option Session
deriving DecidableEq, Repr

/-- The GET branch of `/api/tutorial`: 404 for an unknown session. -/
def tutorialGet (sessionId : Option String) (st : Store) : GetResult :=
  match sessionId with
  | none => ⟨400, some "Missing or invalid sessionId", none⟩
  | some sid =>
    if sid = "" then ⟨400, some "Missing or invalid sessionId", none⟩
    else
      match getSession st sid with
      | none => ⟨404, some "Session not found", none⟩
      | some s => ⟨200, none, some s⟩

/-- Scan for an occurrence of `sub` starting at each suffix. -/
def includesAux (sub : List Char) : List Char → Bool
  | [] => sub.isEmpty
  | c :: rest => sub.isPrefixOf (c :: rest) || includesAux sub rest

/-- `url.includes(sub)`: substring containment. -/
def includes (s sub : String) : Bool :=
  includesAux sub.toList s.toList

/-- The character list of the literal `github.com/` from the repo-URL regex. -/
def githubLit : List Char := "github.com/".toList

/-- Continuation of the regex `github\.com\/([^\/]+\/[^\/]+)(?:\/|$)` after the
literal: a non-empty run of non-slash characters, a slash, another non-empty
run, followed by a slash or the end of the string; returns the capture. -/
def matchOwnerRepo (l : List Char) : Option (List Char) :=
  let owner := l.takeWhile (fun c => c != '/')
  if owner.isEmpty then none
  else
    match l.drop owner.length with
    | '/' :: rest2 =>
      let repo := rest2.takeWhile (fun c => c != '/')
      if repo.isEmpty then none
      else
        match rest2.drop repo.length with
        | [] => some (owner ++ '/' :: repo)
        | '/' :: _ => some (owner ++ '/' :: repo)
        | _ :: _ => none
    | _ => none

/-- Left-to-right scan for the first position where the repo-URL regex
matches, as a regex engine does. -/
def scanGithub : List Char → Option (List Char)
  | [] => none
  | c :: rest =>
    if githubLit.isPrefixOf (c :: rest) then
      match matchOwnerRepo ((c :: rest).drop githubLit.length) with
      | some cap => some cap
      | none => scanGithub rest
    else scanGithub rest

/-- `repoUrl.match(/github\.com\/([^\/]+\/[^\/]+)(?:\/|$)/)`: the captured
`owner/repo` path, if the URL matches. -/
def githubRepoMatch (url : String) : Option String :=
  (scanGithub url.toList).map (fun cs => String.mk cs)

/-- Outcome of a `fetch` of a raw README URL: an ok response with a body, a
non-ok response, or a rejected promise. -/
inductive FetchOutcome where
  | ok (body : String) : FetchOutcome
  | notOk : FetchOutcome
  | threw : FetchOutcome
deriving DecidableEq, Repr

/-- `fetchRepoContent`: parse the repo path out of the URL (an unparseable URL
throws, caught by the function's own catch which returns the short placeholder
string), then try the `main` branch README, then `master`, falling back to a
default placeholder when neither exists. -/
def fetchRepoContent (net : String → FetchOutcome) (repoUrl : String) : String :=
  match githubRepoMatch repoUrl with
  | none => "This repository contains code files."
  | some repoPath =>
    match net ("https://raw.githubusercontent.com/" ++ repoPath ++ "/main/README.md") with
    | .ok text => text
    | .threw => "This repository contains code files."
    | .notOk =>
      match net ("https://raw.githubusercontent.com/" ++ repoPath ++ "/master/README.md") with
      | .ok text => text
      | .threw => "This repository contains code files."
      | .notOk => "This repository contains code. No README available."

/-- Character scan for `.replace(/\s+/g, ' ')`: the flag records whether the
previous character was part of a whitespace run, so each maximal whitespace
run emits exactly one space. -/
def collapseGo : Bool → List Char → List Char
  | _, [] => []
  | prevWs, c :: rest =>
    if c.isWhitespace then
      if prevWs then collapseGo true rest
      else ' ' :: collapseGo true rest
    else c :: collapseGo false rest

/-- `.replace(/\s+/g, ' ')` on a string. -/
def collapseWs (s : String) : String := String.mk (collapseGo false s.toList)

/-- `.trim()` on a string: strip leading and trailing whitespace. -/
def jsTrim (s : String) : String :=
  String.mk (((s.toList.dropWhile Char.isWhitespace).reverse.dropWhile
    Char.isWhitespace).reverse)

/-- `.slice(0, n)` / `.substring(0, n)` on a string: the first `n`
characters. -/
def strTake (s : String) (n : Nat) : String :=
  String.mk (s.toList.take n)

/-- The style switch of `buildClaudePrompt`; an absent style falls through to
the default case. -/
def styleHint : Option String → String
  | some "explain5" => "Explain like I am 5 years old, using simple words and concepts."
  | some "frat" => "Explain in a casual college frat guy tone, with humor and slang."
  | some "pizza" => "Use a Pizza Restaurant as an analogy context (e.g., orders, kitchen, delivery)."
  | some "car" => "Use a Car Factory analogy for the explanation (e.g., assembly line, parts, workers)."
  | some "professional" => "Explain in a formal, adult professional manner suitable for business contexts."
  | _ => "Explain in a clear and engaging manner."

/-- `style || 'explain5'`: the style value recorded on the created session; an
absent or empty style is recorded as `explain5`. -/
def recordStyle : Option String → String
  | none => "explain5"
  | some s => if s = "" then "explain5" else s

/-- The fixed system prompt of `buildClaudePrompt`. -/
def systemPromptText : String :=
  "You are a tutorial creator that transforms content into engaging, conversational stories using visual analogies.\n\nYour goal is to create a TUTORIAL that teaches the user step-by-step, NOT just describe images.\n\nEach frame should:\n1. Tell a story that flows naturally from the previous frame\n2. Use conversational language that directly addresses the learner\n3. Explain concepts through relatable analogies\n4. Focus on TEACHING and UNDERSTANDING, not just describing visuals\n5. BE CONCISE - Keep each frame to 2-3 sentences maximum\n\nIMPORTANT: Only output a valid JSON object where each key is a step (step1, step2, step3, etc.) and each value contains:\n- A SHORT conversational tutorial explanation (2-3 sentences max)\n- A brief visual scene description to illustrate it (but NO text/labels in the scene)\n\nUse the MINIMUM number of steps needed (typically 5-7 frames). Make it flow like a story.\n\nCRITICAL RULES:\n1. Write in a conversational, tutorial style: \"Let's start by...\", \"Now...\", \"Here's how...\"\n2. KEEP IT SHORT - Maximum 2-3 sentences per frame\n3. NEVER mention text, labels, signs, or written words in the visual descriptions\n4. Make each frame build on the previous one - create a narrative flow\n5. Focus on teaching and understanding, not just listing features\n\nExample output format:\n\x7b\n  \"step1\": \"Let's start with the basics. When you first open the application, it's like entering a house - the front door is your entry point. Picture a cozy house with a welcoming entrance.\",\n  \"step2\": \"Now you need to send information somewhere. Think of it like a delivery truck picking up packages. Visualize a friendly delivery truck loading colorful boxes.\",\n  \"step3\": \"Finally, all that information gets stored safely in a warehouse. Your data sits here until you need it again. Imagine a large warehouse with neatly stacked boxes.\"\n\x7d\n\nDo not include any text before or after the JSON object. Only return valid JSON."

/-- `buildClaudePrompt(contentTranscript, style)`: the fixed system prompt and
the user prompt with the content capped at 8000 characters and the selected
style instruction fragment. -/
def buildClaudePrompt (contentTranscript : String) (style : Option String) :
    String × String :=
  (systemPromptText,
   "Content to explain:\n\"\"\"" ++ strTake contentTranscript 8000 ++
     "\"\"\"\n\nStyle requirement: " ++ styleHint style ++
     "\n\nCreate a conversational tutorial that teaches this content step-by-step. Use 5-8 frames that flow together as a story. Make it engaging and easy to understand. Each frame should teach something new while building on what came before.")

/-- Index of the last closing brace of a character list. -/
def lastCloseIdx (l : List Char) : Option Nat :=
  match l.reverse.findIdx? (fun c => c == '\x7d') with
  | some r => some (l.length - 1 - r)
  | none => none

/-- Extraction of `assistantReply.match(/\x7b[\s\S]+\x7d/)`: the first match
of the greedy brace pattern runs from the first opening brace to the last
closing brace of the reply, and needs at least one character in between. -/
def extractBraced (s : String) : Option String :=
  let l := s.toList
  match l.findIdx? (fun c => c == '\x7b'), lastCloseIdx l with
  | some p, some q =>
    if p + 2 ≤ q then some (String.mk ((l.drop p).take (q + 1 - p))) else none
  | some _, none => none
  | none, _ => none

/-- The storyboard-parsing block of the create handler: direct `JSON.parse`,
then the brace-substring fallback, then the fatal invalid-JSON error. The
external `JSON.parse` is the oracle `pj` (an `Except` carrying the engine's
thrown message). -/
def parseStoryboardReply (pj : String → Except String (List (String × String)))
    (reply : String) : Except String (List (String × String)) :=
  match pj reply with
  | .ok sb => .ok sb
  | .error _ =>
    match extractBraced reply with
    | some sub => pj sub
    | none => .error "Claude output was not valid JSON"

/-- Outcome of `fetchWebsiteContent`: the raw HTML, or a thrown error (missing
BrightData key, or a non-ok response). -/
inductive WebOutcome where
  | html (body : String) : WebOutcome
  | threw (msg : String) : WebOutcome
deriving DecidableEq, Repr

/-- Outcome of the Claude messages call: a text content block, a non-text
block, or a thrown API error. -/
inductive ClaudeOutcome where
  | text (reply : String) : ClaudeOutcome
  | nonText : ClaudeOutcome
  | threw (msg : String) : ClaudeOutcome
deriving DecidableEq, Repr

/-- Content extraction of the create handler: the GitHub README branch for
URLs containing `github.com`, otherwise the website branch — fetch the HTML,
take the body text (the cheerio part is the oracle `htmlText`), collapse
whitespace, trim, and cap at 10000 characters. -/
def postContent (net : String → FetchOutcome) (web : String → WebOutcome)
    (htmlText : String → String) (url : String) : Except String String :=
  if includes url "github.com" then .ok (fetchRepoContent net url)
  else
    match web url with
    | .threw msg => .error msg
    | .html h => .ok (strTake (jsTrim (collapseWs (htmlText h))) 10000)

/-- HTTP-level result of the POST branch of `/api/tutorial`. -/
structure PostResult where
  status : Nat
  error : Option String
  sessionId : Option String
  store : Store
deriving DecidableEq, Repr

/-- The POST branch of `/api/tutorial`: validate the URL, extract content,
require at least 50 characters, call Claude, parse the storyboard, require at
least one step, then create the session; every thrown error is answered with
a 500 carrying the error's message, and the store is only written on the
success path. -/
def tutorialPost (net : String → FetchOutcome) (web : String → WebOutcome)
    (htmlText : String → String) (claude : String → String → ClaudeOutcome)
    (pj : String → Except String (List (String × String))) (uuid : String)
    (url : Option String) (style : Option String) (st : Store) : PostResult :=
  match url with
  | none => ⟨400, some "Missing URL", none, st⟩
  | some u =>
    if u = "" then ⟨400, some "Missing URL", none, st⟩
    else
      match postContent net web htmlText u with
      | .error msg => ⟨500, some msg, none, st⟩
      | .ok contentText =>
        if contentText = "" ∨ contentText.length < 50 then
          ⟨500, some "Could not extract sufficient content from the URL", none, st⟩
        else
          let prompts := buildClaudePrompt contentText style
          match claude prompts.1 prompts.2 with
          | .threw msg => ⟨500, some msg, none, st⟩
          | .nonText => ⟨500, some "Unexpected response type from Claude", none, st⟩
          | .text assistantReply =>
            match parseStoryboardReply pj assistantReply with
            | .error msg => ⟨500, some msg, none, st⟩
            | .ok storyboard =>
              if storyboard.length = 0 then
                ⟨500, some "Claude did not generate any storyboard steps", none, st⟩
              else
                ⟨200, none, some uuid,
                 createSession st uuid ⟨storyboard, [], u, recordStyle style⟩⟩

/-- The frame `updateFrame` merges into: the existing slot, or an empty frame
when the slot is absent. -/
def baseFrame (s : Session) (i : Nat) : Frame :=
  (s.frames.getD i none).getD emptyFrame

/-- A readable frame slot: present, with non-empty narration text. -/
def FrameOk (of : Option Frame) : Prop :=
  ∃ f, of = some f ∧ f.text ≠ ""

/-! ### Order lemmas for the key sort -/

/-- Characters with equal code points are equal. -/
theorem char_toNat_inj {a b : Char} (h : a.toNat = b.toNat) : a = b := by
  apply Char.eq_of_val_eq
  exact UInt32.toNat.inj h

/-- Strings with equal character lists are equal. -/
theorem string_toList_inj {a b : String} (h : a.toList = b.toList) : a = b := by
  cases a; cases b
  simp only [String.toList] at h
  exact congrArg String.mk h

/-- `charListLe` is total. -/
theorem charListLe_total : ∀ l1 l2 : List Char,
    charListLe l1 l2 = true ∨ charListLe l2 l1 = true := by
  intro l1
  induction l1 with
  | nil => intro l2; left; simp [charListLe]
  | cons a as ih =>
    intro l2
    cases l2 with
    | nil => right; simp [charListLe]
    | cons b bs =>
      rcases Nat.lt_trichotomy a.toNat b.toNat with h | h | h
      · left; simp [charListLe, h]
      · have h1 : ¬ a.toNat < b.toNat := by omega
        have h2 : ¬ b.toNat < a.toNat := by omega
        rcases ih bs with h3 | h3
        · left; simp [charListLe, h1, h2, h3]
        · right; simp [charListLe, h1, h2, h3]
      · right; simp [charListLe, h, Nat.not_lt_of_gt h]

/-- `charListLe` is transitive. -/
theorem charListLe_trans : ∀ l1 l2 l3 : List Char,
    charListLe l1 l2 = true → charListLe l2 l3 = true → charListLe l1 l3 = true := by
  intro l1
  induction l1 with
  | nil => intro l2 l3 _ _; simp [charListLe]
  | cons a as ih =>
    intro l2 l3 h12 h23
    cases l2 with
    | nil => simp [charListLe] at h12
    | cons b bs =>
      cases l3 with
      | nil => simp [charListLe] at h23
      | cons c cs =>
        simp only [charListLe] at h12 h23 ⊢
        split_ifs at h12 h23 ⊢ with hab hba hbc hcb hac hca
        all_goals first
          | rfl
          | omega
          | (exact ih bs cs h12 h23)

/-- `charListLe` is antisymmetric. -/
theorem charListLe_antisymm : ∀ l1 l2 : List Char,
    charListLe l1 l2 = true → charListLe l2 l1 = true → l1 = l2 := by
  intro l1
  induction l1 with
  | nil =>
    intro l2 _ h21
    cases l2 with
    | nil => rfl
    | cons b bs => simp [charListLe] at h21
  | cons a as ih =>
    intro l2 h12 h21
    cases l2 with
    | nil => simp [charListLe] at h12
    | cons b bs =>
      simp only [charListLe] at h12 h21
      split_ifs at h12 h21 with hab hba
      · omega
      · have hn : a.toNat = b.toNat := by omega
        rw [char_toNat_inj hn, ih bs h12 h21]

/-- `strLe` is total. -/
theorem strLe_total (a b : String) : strLe a b = true ∨ strLe b a = true :=
  charListLe_total a.toList b.toList

/-- `strLe` is transitive. -/
theorem strLe_trans {a b c : String} (h1 : strLe a b = true)
    (h2 : strLe b c = true) : strLe a c = true :=
  charListLe_trans a.toList b.toList c.toList h1 h2

/-- `strLe` is antisymmetric. -/
theorem strLe_antisymm {a b : String} (h1 : strLe a b = true)
    (h2 : strLe b a = true) : a = b :=
  string_toList_inj (charListLe_antisymm a.toList b.toList h1 h2)

instance : IsTotal String (fun a b => strLe a b = true) := ⟨strLe_total⟩

instance : IsTrans String (fun a b => strLe a b = true) :=
  ⟨fun _ _ _ => strLe_trans⟩

instance : IsAntisymm String (fun a b => strLe a b = true) :=
  ⟨fun _ _ => strLe_antisymm⟩

/-- The sorted key list is a permutation of the storyboard's key list. -/
theorem sortedKeys_perm (sb : List (String × String)) :
    List.Perm (sortedKeys sb) (sb.map Prod.fst) :=
  List.perm_insertionSort _ _

/-- The sorted key list is sorted. -/
theorem sortedKeys_sorted (sb : List (String × String)) :
    List.Sorted (fun a b => strLe a b = true) (sortedKeys sb) :=
  List.sorted_insertionSort _ _

/-- Storyboards whose key lists are permutations of each other sort to the
same key list. -/
theorem sortedKeys_eq_of_perm {sb1 sb2 : List (String × String)}
    (h : List.Perm (sb1.map Prod.fst) (sb2.map Prod.fst)) :
    sortedKeys sb1 = sortedKeys sb2 :=
  List.eq_of_perm_of_sorted
    (((sortedKeys_perm sb1).trans h).trans (sortedKeys_perm sb2).symm)
    (sortedKeys_sorted sb1) (sortedKeys_sorted sb2)

/-- The sorted key list has one key per storyboard step. -/
theorem sortedKeys_length (sb : List (String × String)) :
    (sortedKeys sb).length = sb.length := by
  rw [(sortedKeys_perm sb).length_eq, List.length_map]

/-- A key of the storyboard looks up to one of the storyboard's values. -/
theorem lookupD_mem {sb : List (String × String)} {k : String}
    (h : k ∈ sb.map Prod.fst) : ∃ p ∈ sb, p.1 = k ∧ lookupD sb k = p.2 := by
  obtain ⟨p, hp, hk⟩ := List.mem_map.mp h
  have hsome : (sb.find? (fun q => q.1 == k)).isSome := by
    apply List.find?_isSome.mpr
    exact ⟨p, hp, by simp [hk]⟩
  obtain ⟨q, hq⟩ := Option.isSome_iff_exists.mp hsome
  refine ⟨q, List.mem_of_find?_eq_some hq, ?_, ?_⟩
  · have := List.find?_some hq
    simpa using this
  · simp [lookupD, hq]

/-! ### Frame-list and `updateFrame` lemmas -/

/-- A list of absent slots reads as absent everywhere. -/
theorem getD_replicate_none :
    ∀ (k j : Nat), (List.replicate k (none : Option Frame)).getD j none = none := by
  intro k
  induction k with
  | zero => intro j; simp [List.getD]
  | succ n ih =>
    intro j
    cases j with
    | zero => simp [List.replicate]
    | succ m => simpa [List.replicate] using ih m

/-- Reading through appended absent slots is reading the original list. -/
theorem getD_append_replicate_none (fl : List (Option Frame)) (k : Nat) :
    ∀ j, (fl ++ List.replicate k none).getD j none = fl.getD j none := by
  induction fl with
  | nil => intro j; simpa using getD_replicate_none k j
  | cons a l ih =>
    intro j
    cases j with
    | zero => simp
    | succ m => simpa using ih m

/-- Reading through padding is reading the original list. -/
theorem padTo_getD (fl : List (Option Frame)) (n j : Nat) :
    (padTo fl n).getD j none = fl.getD j none :=
  getD_append_replicate_none fl (n - fl.length) j

/-- Length after padding. -/
theorem padTo_length (fl : List (Option Frame)) (n : Nat) :
    (padTo fl n).length = max fl.length n := by
  simp [padTo]
  omega

/-- Padding to an already-reached length changes nothing. -/
theorem padTo_eq_self {fl : List (Option Frame)} {n : Nat}
    (h : n ≤ fl.length) : padTo fl n = fl := by
  simp [padTo, Nat.sub_eq_zero_of_le h]

/-- Reading an updated list. -/
theorem getD_set {α : Type} (d : α) :
    ∀ (l : List α) (i j : Nat) (b : α),
      (l.set i b).getD j d = if i = j ∧ i < l.length then b else l.getD j d := by
  intro l
  induction l with
  | nil => intro i j b; simp [List.set]
  | cons a tl ih =>
    intro i j b
    cases i with
    | zero =>
      cases j with
      | zero => simp
      | succ m => simp
    | succ n =>
      cases j with
      | zero => simp
      | succ m =>
        simp only [List.set, List.getD_cons_succ, List.length_cons]
        rw [ih]
        by_cases h1 : n = m ∧ n < tl.length
        · rw [if_pos h1, if_pos (by omega : n + 1 = m + 1 ∧ n + 1 < tl.length + 1)]
        · rw [if_neg h1, if_neg (by omega : ¬(n + 1 = m + 1 ∧ n + 1 < tl.length + 1))]

/-- Setting the slot just past the end of a list. -/
theorem set_append_len {α : Type} :
    ∀ (l : List α) (a b : α), (l ++ [a]).set l.length b = l ++ [b] := by
  intro l
  induction l with
  | nil => intro a b; simp
  | cons x xs ih => intro a b; simp [ih]

/-- `updateFrame` leaves the storyboard untouched. -/
theorem updateFrame_steps (s : Session) (i : Nat) (p : FramePatch) :
    (s.updateFrame i p).steps = s.steps := rfl

/-- Length after `updateFrame`: the list grows exactly as far as needed. -/
theorem updateFrame_length (s : Session) (i : Nat) (p : FramePatch) :
    (s.updateFrame i p).frames.length = max s.frames.length (i + 1) := by
  simp [Session.updateFrame, padTo_length]

/-- Reading a session after `updateFrame`: slot `i` holds the merge of the old
slot with the patch, every other slot is unchanged. -/
theorem updateFrame_getD (s : Session) (i : Nat) (p : FramePatch) (j : Nat) :
    (s.updateFrame i p).frames.getD j none =
      if i = j then some ((baseFrame s i).merge p) else s.frames.getD j none := by
  have hlen : i < (padTo s.frames (i + 1)).length := by
    rw [padTo_length]; omega
  simp only [Session.updateFrame]
  rw [getD_set]
  by_cases h : i = j
  · rw [if_pos ⟨h, hlen⟩, if_pos h, padTo_getD, baseFrame]
  · rw [if_neg (by tauto), if_neg h, padTo_getD]

/-- Membership in an updated frame list: each slot is an old slot, padding, or
the merged slot. -/
theorem updateFrame_mem {s : Session} {i : Nat} {p : FramePatch} {of : Option Frame}
    (h : of ∈ (s.updateFrame i p).frames) :
    of ∈ s.frames ∨ of = none ∨ of = some ((baseFrame s i).merge p) := by
  simp only [Session.updateFrame] at h
  rcases List.mem_or_eq_of_mem_set h with h1 | h1
  · rcases List.mem_append.mp h1 with h2 | h2
    · exact Or.inl h2
    · exact Or.inr (Or.inl (List.eq_of_mem_replicate h2))
  · rw [padTo_getD] at h1
    exact Or.inr (Or.inr h1)

/-- Reading past the end of a list gives the default. -/
theorem getD_ge_len {α : Type} (d : α) :
    ∀ (l : List α) (i : Nat), l.length ≤ i → l.getD i d = d := by
  intro l
  induction l with
  | nil => intro i _; simp [List.getD]
  | cons a tl ih =>
    intro i hi
    cases i with
    | zero => simp at hi
    | succ m => simpa using ih m (by simpa using hi)

/-- `updateFrame` exactly at the end of the frame list appends one slot. -/
theorem updateFrame_append {s : Session} {p : FramePatch} {i : Nat}
    (hi : s.frames.length = i) :
    (s.updateFrame i p).frames = s.frames ++ [some (emptyFrame.merge p)] := by
  have hone : i + 1 - s.frames.length = 1 := by omega
  have hpad : padTo s.frames (i + 1) = s.frames ++ [none] := by
    rw [padTo, hone, List.replicate_one]
  have hbase : (padTo s.frames (i + 1)).getD i none = none :=
    (padTo_getD _ _ _).trans (getD_ge_len none s.frames i (le_of_eq hi))
  simp only [Session.updateFrame, hbase, Option.getD_none]
  rw [hpad]
  subst hi
  exact set_append_len s.frames none _

/-! ### Pre-initialization and stage-loop lemmas -/

/-- Merging the image-stage pre-initialization patch into an absent slot. -/
theorem merge_empty_text (t : String) :
    emptyFrame.merge ⟨some t, none, none⟩ = ⟨t, none, none⟩ := rfl

/-- The image-stage pre-initialization loop appends, in order, one frame per
key holding that key's storyboard text. -/
theorem preInitImage_fresh (sb : List (String × String)) :
    ∀ (keys : List String) (m : Nat) (s : Session), s.frames.length = m →
      (preInitImage sb (keys.enumFrom m) s).frames =
        s.frames ++ keys.map (fun k => some ⟨lookupD sb k, none, none⟩) := by
  intro keys
  induction keys with
  | nil => intro m s _; simp [preInitImage, List.enumFrom]
  | cons k ks ih =>
    intro m s hm
    have hstep : (s.updateFrame m ⟨some (lookupD sb k), none, none⟩).frames =
        s.frames ++ [some ⟨lookupD sb k, none, none⟩] := by
      rw [updateFrame_append hm, merge_empty_text]
    have hlen : (s.updateFrame m ⟨some (lookupD sb k), none, none⟩).frames.length
        = m + 1 := by
      rw [hstep]; simp [hm]
    calc (preInitImage sb ((k :: ks).enumFrom m) s).frames
        = (preInitImage sb (ks.enumFrom (m + 1))
            (s.updateFrame m ⟨some (lookupD sb k), none, none⟩)).frames := by
          simp [preInitImage, List.enumFrom, List.foldl]
      _ = s.frames ++ (k :: ks).map (fun k => some ⟨lookupD sb k, none, none⟩) := by
          rw [ih (m + 1) _ hlen, hstep]
          simp

/-- The audio-stage pre-initialization loop does the same on a fresh session:
every slot it looks at is still absent, so it writes every one. -/
theorem preInitAudio_fresh (sb : List (String × String)) :
    ∀ (keys : List String) (m : Nat) (s : Session), s.frames.length = m →
      (preInitAudio sb (keys.enumFrom m) s).frames =
        s.frames ++ keys.map (fun k => some ⟨lookupD sb k, none, none⟩) := by
  intro keys
  induction keys with
  | nil => intro m s _; simp [preInitAudio, List.enumFrom]
  | cons k ks ih =>
    intro m s hm
    have habsent : s.frames.getD m none = (none : Option Frame) :=
      getD_ge_len none _ m (le_of_eq hm)
    have hstep : (s.updateFrame m ⟨some (lookupD sb k), none, none⟩).frames =
        s.frames ++ [some ⟨lookupD sb k, none, none⟩] := by
      rw [updateFrame_append hm, merge_empty_text]
    have hlen : (s.updateFrame m ⟨some (lookupD sb k), none, none⟩).frames.length
        = m + 1 := by
      rw [hstep]; simp [hm]
    calc (preInitAudio sb ((k :: ks).enumFrom m) s).frames
        = (preInitAudio sb (ks.enumFrom (m + 1))
            (s.updateFrame m ⟨some (lookupD sb k), none, none⟩)).frames := by
          simp only [preInitAudio, List.enumFrom, List.foldl, habsent]
      _ = s.frames ++ (k :: ks).map (fun k => some ⟨lookupD sb k, none, none⟩) := by
          rw [ih (m + 1) _ hlen, hstep]
          simp

/-- `updateFrame` below the current length only replaces the one slot. -/
theorem updateFrame_mem_lt {s : Session} {i : Nat} {p : FramePatch}
    (hi : i < s.frames.length) {of : Option Frame}
    (h : of ∈ (s.updateFrame i p).frames) :
    of ∈ s.frames ∨ of = some ((baseFrame s i).merge p) := by
  simp only [Session.updateFrame, padTo_eq_self (by omega : i + 1 ≤ s.frames.length)] at h
  rcases List.mem_or_eq_of_mem_set h with h1 | h1
  · exact Or.inl h1
  · exact Or.inr h1

/-- An in-range `updateFrame` whose patch carries non-empty text preserves the
all-frames-readable invariant and the frame count. -/
theorem updateFrame_inv {s : Session} {i : Nat} {p : FramePatch} {t : String}
    (hi : i < s.frames.length) (hp : p.text = some t) (ht : t ≠ "")
    (hall : ∀ of ∈ s.frames, FrameOk of) :
    (s.updateFrame i p).frames.length = s.frames.length ∧
      ∀ of ∈ (s.updateFrame i p).frames, FrameOk of := by
  constructor
  · rw [updateFrame_length]; omega
  · intro of hof
    rcases updateFrame_mem_lt hi hof with h1 | h1
    · exact hall of h1
    · refine ⟨(baseFrame s i).merge p, h1, ?_⟩
      simp [Frame.merge, hp, ht]

/-- The image-stage main loop preserves the storyboard, the frame count, and
the all-frames-readable invariant, for any generation and upload outcomes. -/
theorem imageStageSteps_inv (gen : Nat → Nat → GenOutcome) (upl : Nat → Bool)
    (bucket sid : String) (sb : List (String × String)) :
    ∀ (ks : List (Nat × String)) (s : Session) (acc : List String),
      (∀ ik ∈ ks, ik.1 < s.frames.length) →
      (∀ ik ∈ ks, lookupD sb ik.2 ≠ "") →
      (∀ of ∈ s.frames, FrameOk of) →
      (imageStageSteps gen upl bucket sid sb ks s acc).1.steps = s.steps ∧
      (imageStageSteps gen upl bucket sid sb ks s acc).1.frames.length = s.frames.length ∧
      ∀ of ∈ (imageStageSteps gen upl bucket sid sb ks s acc).1.frames, FrameOk of := by
  intro ks
  induction ks with
  | nil => intro s acc _ _ hall; exact ⟨rfl, rfl, hall⟩
  | cons ik rest ih =>
    intro s acc hlt hne hall
    have hi : ik.1 < s.frames.length := hlt ik (by simp)
    have hni : lookupD sb ik.2 ≠ "" := hne ik (by simp)
    simp only [imageStageSteps]
    cases hgen : imageGenAttempts (gen ik.1) with
    | rateLimited => exact ⟨rfl, rfl, hall⟩
    | skipped =>
      exact ih s acc (fun jk hj => hlt jk (by simp [hj]))
        (fun jk hj => hne jk (by simp [hj])) hall
    | success =>
      by_cases hup : upl ik.1
      · rw [if_pos hup]
        have hinv := updateFrame_inv (p := ⟨some (lookupD sb ik.2),
          some (s3Url bucket sid ik.1 "png"), none⟩) hi rfl hni hall
        have := ih (s.updateFrame ik.1 ⟨some (lookupD sb ik.2),
            some (s3Url bucket sid ik.1 "png"), none⟩)
          (acc ++ [s3Url bucket sid ik.1 "png"])
          (fun jk hj => by rw [hinv.1]; exact hlt jk (by simp [hj]))
          (fun jk hj => hne jk (by simp [hj])) hinv.2
        refine ⟨?_, ?_, this.2.2⟩
        · rw [this.1, updateFrame_steps]
        · rw [this.2.1, hinv.1]
      · rw [if_neg hup]
        exact ih s acc (fun jk hj => hlt jk (by simp [hj]))
          (fun jk hj => hne jk (by simp [hj])) hall

/-- The audio-stage main loop preserves the storyboard, the frame count, and
the all-frames-readable invariant, for any synthesis and upload outcomes. -/
theorem audioStageSteps_inv (tts : Nat → TtsOutcome) (upl : Nat → Bool)
    (bucket sid : String) (sb : List (String × String)) :
    ∀ (ks : List (Nat × String)) (s : Session) (acc : List String),
      (∀ ik ∈ ks, ik.1 < s.frames.length) →
      (∀ ik ∈ ks, lookupD sb ik.2 ≠ "") →
      (∀ of ∈ s.frames, FrameOk of) →
      (audioStageSteps tts upl bucket sid sb ks s acc).1.steps = s.steps ∧
      (audioStageSteps tts upl bucket sid sb ks s acc).1.frames.length = s.frames.length ∧
      ∀ of ∈ (audioStageSteps tts upl bucket sid sb ks s acc).1.frames, FrameOk of := by
  intro ks
  induction ks with
  | nil => intro s acc _ _ hall; exact ⟨rfl, rfl, hall⟩
  | cons ik rest ih =>
    intro s acc hlt hne hall
    have hi : ik.1 < s.frames.length := hlt ik (by simp)
    have hni : lookupD sb ik.2 ≠ "" := hne ik (by simp)
    simp only [audioStageSteps]
    cases htts : tts ik.1 with
    | err msg =>
      exact ih s acc (fun jk hj => hlt jk (by simp [hj]))
        (fun jk hj => hne jk (by simp [hj])) hall
    | ok =>
      by_cases hup : upl ik.1
      · rw [if_pos hup]
        have hinv := updateFrame_inv (p := ⟨some (lookupD sb ik.2),
          ((s.frames.getD ik.1 none).getD ⟨lookupD sb ik.2, none, none⟩).imageUrl,
          some (s3Url bucket sid ik.1 "mp3")⟩) hi rfl hni hall
        have := ih (s.updateFrame ik.1 ⟨some (lookupD sb ik.2),
            ((s.frames.getD ik.1 none).getD ⟨lookupD sb ik.2, none, none⟩).imageUrl,
            some (s3Url bucket sid ik.1 "mp3")⟩)
          (acc ++ [s3Url bucket sid ik.1 "mp3"])
          (fun jk hj => by rw [hinv.1]; exact hlt jk (by simp [hj]))
          (fun jk hj => hne jk (by simp [hj])) hinv.2
        refine ⟨?_, ?_, this.2.2⟩
        · rw [this.1, updateFrame_steps]
        · rw [this.2.1, hinv.1]
      · rw [if_neg hup]
        exact ih s acc (fun jk hj => hlt jk (by simp [hj]))
          (fun jk hj => hne jk (by simp [hj])) hall

/-- The audio-stage pre-initialization loop preserves the storyboard, the
frame count, and the all-frames-readable invariant. -/
theorem preInitAudio_inv (sb : List (String × String)) :
    ∀ (ks : List (Nat × String)) (s : Session),
      (∀ ik ∈ ks, ik.1 < s.frames.length) →
      (∀ ik ∈ ks, lookupD sb ik.2 ≠ "") →
      (∀ of ∈ s.frames, FrameOk of) →
      (preInitAudio sb ks s).steps = s.steps ∧
      (preInitAudio sb ks s).frames.length = s.frames.length ∧
      ∀ of ∈ (preInitAudio sb ks s).frames, FrameOk of := by
  intro ks
  induction ks with
  | nil => intro s _ _ hall; exact ⟨rfl, rfl, hall⟩
  | cons ik rest ih =>
    intro s hlt hne hall
    have hi : ik.1 < s.frames.length := hlt ik (by simp)
    have hni : lookupD sb ik.2 ≠ "" := hne ik (by simp)
    simp only [preInitAudio, List.foldl]
    cases hslot : s.frames.getD ik.1 none with
    | some f =>
      exact ih s (fun jk hj => hlt jk (by simp [hj]))
        (fun jk hj => hne jk (by simp [hj])) hall
    | none =>
      have hinv := updateFrame_inv
        (p := ⟨some (lookupD sb ik.2), none, none⟩) hi rfl hni hall
      have := ih (s.updateFrame ik.1 ⟨some (lookupD sb ik.2), none, none⟩)
        (fun jk hj => by rw [hinv.1]; exact hlt jk (by simp [hj]))
        (fun jk hj => hne jk (by simp [hj])) hinv.2
      exact ⟨this.1.trans (updateFrame_steps s ik.1 _),
        this.2.1.trans hinv.1, this.2.2⟩

/-! ### Enumeration helpers and whole-stage lemmas -/

/-- Reading a mapped list inside its range. -/
theorem getD_map_lt {α β : Type} (f : α → β) :
    ∀ (l : List α) (i : Nat), i < l.length → ∀ (d : β) (d0 : α),
      (l.map f).getD i d = f (l.getD i d0) := by
  intro l
  induction l with
  | nil => intro i hi; simp at hi
  | cons a tl ih =>
    intro i hi d d0
    cases i with
    | zero => simp
    | succ m => simpa using ih m (by simpa using hi) d d0

/-- Facts about membership in an index enumeration. -/
theorem mem_enumFrom_facts {α : Type} :
    ∀ (l : List α) (m : Nat) (ik : Nat × α), ik ∈ l.enumFrom m →
      m ≤ ik.1 ∧ ik.1 < m + l.length ∧ ik.2 ∈ l := by
  intro l
  induction l with
  | nil => intro m ik h; simp [List.enumFrom] at h
  | cons a tl ih =>
    intro m ik h
    rcases List.mem_cons.mp h with h1 | h1
    · subst h1
      refine ⟨le_refl m, by simp, by simp⟩
    · obtain ⟨h2, h3, h4⟩ := ih (m + 1) ik h1
      exact ⟨by omega, by simp; omega, by simp [h4]⟩

/-- The image-stage pre-initialization loop leaves the storyboard untouched. -/
theorem preInitImage_steps (sb : List (String × String)) :
    ∀ (ks : List (Nat × String)) (s : Session),
      (preInitImage sb ks s).steps = s.steps := by
  intro ks
  induction ks with
  | nil => intro s; rfl
  | cons ik rest ih =>
    intro s
    simpa [preInitImage, List.foldl] using
      (ih (s.updateFrame ik.1 ⟨some (lookupD sb ik.2), none, none⟩)).trans
        (updateFrame_steps s ik.1 _)

/-- Every sorted key of a storyboard with non-empty texts looks up to a
non-empty text. -/
theorem sortedKeys_lookup_ne {sb : List (String × String)}
    (hvals : ∀ p ∈ sb, p.2 ≠ "") :
    ∀ k ∈ sortedKeys sb, lookupD sb k ≠ "" := by
  intro k hk
  have hk2 : k ∈ sb.map Prod.fst := (sortedKeys_perm sb).mem_iff.mp hk
  obtain ⟨p, hp, _, hval⟩ := lookupD_mem hk2
  rw [hval]
  exact hvals p hp

/-- C1: for every valid storyboard with N steps (non-empty step texts), after
the image stage and the audio stage both run to completion on a fresh session,
the session's frames list has length N and every frame is present with
non-empty text, whatever the generation, synthesis and upload outcomes are —
each stage pre-initializes every frame slot with the step's storyboard text
before attempting any artifact. -/
theorem stages_give_complete_frames (gen : Nat → Nat → GenOutcome)
    (upl : Nat → Bool) (tts : Nat → TtsOutcome) (uplA : Nat → Bool)
    (bucket sid url style : String) (sb : List (String × String))
    (hvals : ∀ p ∈ sb, p.2 ≠ "") :
    let s0 : Session := ⟨sb, [], url, style⟩
    let s1 := (runImageStage gen upl bucket sid s0).1
    let s2 := (runAudioStage tts uplA bucket sid s1).1
    s2.frames.length = sb.length ∧ ∀ of ∈ s2.frames, FrameOk of := by
  intro s0 s1 s2
  have hne := sortedKeys_lookup_ne hvals
  have hkeys0 : sortedKeys s0.steps = sortedKeys sb := rfl
  -- the image-stage pre-initialization of the fresh session
  have hpre : (preInitImage sb ((sortedKeys sb).enum) s0).frames =
      (sortedKeys sb).map (fun k => some ⟨lookupD sb k, none, none⟩) := by
    simpa [List.enum] using preInitImage_fresh sb (sortedKeys sb) 0 s0 rfl
  have hprelen : (preInitImage sb ((sortedKeys sb).enum) s0).frames.length
      = (sortedKeys sb).length := by rw [hpre, List.length_map]
  have hpresteps : (preInitImage sb ((sortedKeys sb).enum) s0).steps = sb :=
    preInitImage_steps sb _ s0
  have hpreok : ∀ of ∈ (preInitImage sb ((sortedKeys sb).enum) s0).frames,
      FrameOk of := by
    rw [hpre]
    intro of hof
    obtain ⟨k, hk, hof2⟩ := List.mem_map.mp hof
    exact ⟨⟨lookupD sb k, none, none⟩, hof2.symm ▸ rfl, hne k hk⟩
  -- the image-stage main loop
  have himg := imageStageSteps_inv gen upl bucket sid sb ((sortedKeys sb).enum)
    (preInitImage sb ((sortedKeys sb).enum) s0) []
    (fun ik hik => by
      rw [hprelen]
      have := (mem_enumFrom_facts (sortedKeys sb) 0 ik (by simpa [List.enum] using hik)).2.1
      omega)
    (fun ik hik =>
      hne ik.2 (mem_enumFrom_facts (sortedKeys sb) 0 ik (by simpa [List.enum] using hik)).2.2)
    hpreok
  have hs1def : s1 = (imageStageSteps gen upl bucket sid sb ((sortedKeys sb).enum)
      (preInitImage sb ((sortedKeys sb).enum) s0) []).1 := rfl
  have hs1steps : s1.steps = sb := by rw [hs1def, himg.1, hpresteps]
  have hs1len : s1.frames.length = (sortedKeys sb).length := by
    rw [hs1def, himg.2.1, hprelen]
  have hs1ok : ∀ of ∈ s1.frames, FrameOk of := by rw [hs1def]; exact himg.2.2
  -- the audio-stage pre-initialization (all slots already exist)
  have hkeys1 : sortedKeys s1.steps = sortedKeys sb := by rw [hs1steps]
  have hpa := preInitAudio_inv s1.steps ((sortedKeys s1.steps).enum) s1
    (fun ik hik => by
      have := (mem_enumFrom_facts (sortedKeys s1.steps) 0 ik
        (by simpa [List.enum] using hik)).2.1
      rw [hs1len]
      rw [hkeys1] at this
      omega)
    (fun ik hik => by
      rw [hs1steps]
      refine hne ik.2 ?_
      have := (mem_enumFrom_facts (sortedKeys s1.steps) 0 ik
        (by simpa [List.enum] using hik)).2.2
      rwa [hkeys1] at this)
    hs1ok
  -- the audio-stage main loop
  have hau := audioStageSteps_inv tts uplA bucket sid s1.steps
    ((sortedKeys s1.steps).enum) (preInitAudio s1.steps ((sortedKeys s1.steps).enum) s1) []
    (fun ik hik => by
      rw [hpa.2.1, hs1len]
      have := (mem_enumFrom_facts (sortedKeys s1.steps) 0 ik
        (by simpa [List.enum] using hik)).2.1
      rw [hkeys1] at this
      omega)
    (fun ik hik => by
      rw [hs1steps]
      refine hne ik.2 ?_
      have := (mem_enumFrom_facts (sortedKeys s1.steps) 0 ik
        (by simpa [List.enum] using hik)).2.2
      rwa [hkeys1] at this)
    hpa.2.2
  have hs2def : s2 = (audioStageSteps tts uplA bucket sid s1.steps
      ((sortedKeys s1.steps).enum)
      (preInitAudio s1.steps ((sortedKeys s1.steps).enum) s1) []).1 := rfl
  constructor
  · rw [hs2def, hau.2.1, hpa.2.1, hs1len, sortedKeys_length]
  · rw [hs2def]
    exact hau.2.2

/-- Witness for C1 at a concrete two-step storyboard with all-successful
oracles. -/
theorem stages_give_complete_frames_witness :
    let s0 : Session := ⟨[("step1", "a"), ("step2", "b")], [], "u", "explain5"⟩
    let s1 := (runImageStage (fun _ _ => .ok) (fun _ => true) "b" "s" s0).1
    let s2 := (runAudioStage (fun _ => .ok) (fun _ => true) "b" "s" s1).1
    s2.frames.length = 2 ∧ ∀ of ∈ s2.frames, FrameOk of := by
  have h := stages_give_complete_frames (fun _ _ => .ok) (fun _ => true)
    (fun _ => .ok) (fun _ => true) "b" "s" "u" "explain5"
    [("step1", "a"), ("step2", "b")] (by decide)
  simpa using h

/-- C4: in both stages frame index `i` corresponds to the `i`-th storyboard
key in lexicographically sorted order, independent of the storyboard's key
insertion order: permuting the keys does not change the sorted key list, after
either stage's pre-initialization the frame at index `i` carries the text of
the `i`-th sorted key, and the `step2`/`step1` storyboard yields frame order
`[step1, step2]`. -/
theorem frame_order_lexical :
    (∀ sb1 sb2 : List (String × String),
      List.Perm (sb1.map Prod.fst) (sb2.map Prod.fst) →
      sortedKeys sb1 = sortedKeys sb2) ∧
    (∀ (sb : List (String × String)) (url style : String) (i : Nat),
      i < sb.length →
      (preInitImage sb ((sortedKeys sb).enum) ⟨sb, [], url, style⟩).frames.getD i none
        = some ⟨lookupD sb ((sortedKeys sb).getD i ""), none, none⟩) ∧
    (∀ (sb : List (String × String)) (url style : String) (i : Nat),
      i < sb.length →
      (preInitAudio sb ((sortedKeys sb).enum) ⟨sb, [], url, style⟩).frames.getD i none
        = some ⟨lookupD sb ((sortedKeys sb).getD i ""), none, none⟩) ∧
    sortedKeys [("step2", "B"), ("step1", "A")] = ["step1", "step2"] ∧
    (preInitImage [("step2", "B"), ("step1", "A")]
        ((sortedKeys [("step2", "B"), ("step1", "A")]).enum)
        ⟨[("step2", "B"), ("step1", "A")], [], "u", "explain5"⟩).frames =
      [some ⟨"A", none, none⟩, some ⟨"B", none, none⟩] := by
  refine ⟨fun sb1 sb2 h => sortedKeys_eq_of_perm h, ?_, ?_, by decide, by decide⟩
  · intro sb url style i hi
    have hfr : (preInitImage sb ((sortedKeys sb).enum) ⟨sb, [], url, style⟩).frames
        = (sortedKeys sb).map (fun k => some ⟨lookupD sb k, none, none⟩) := by
      simpa [List.enum] using
        preInitImage_fresh sb (sortedKeys sb) 0 ⟨sb, [], url, style⟩ rfl
    rw [hfr]
    simpa using getD_map_lt (fun k => some (⟨lookupD sb k, none, none⟩ : Frame))
      (sortedKeys sb) i (by rw [sortedKeys_length]; exact hi) none ""
  · intro sb url style i hi
    have hfr : (preInitAudio sb ((sortedKeys sb).enum) ⟨sb, [], url, style⟩).frames
        = (sortedKeys sb).map (fun k => some ⟨lookupD sb k, none, none⟩) := by
      simpa [List.enum] using
        preInitAudio_fresh sb (sortedKeys sb) 0 ⟨sb, [], url, style⟩ rfl
    rw [hfr]
    simpa using getD_map_lt (fun k => some (⟨lookupD sb k, none, none⟩ : Frame))
      (sortedKeys sb) i (by rw [sortedKeys_length]; exact hi) none ""

/-- Witness for C4: the two-key storyboard in either insertion order. -/
theorem frame_order_lexical_witness :
    sortedKeys [("step2", "B"), ("step1", "A")]
      = sortedKeys [("step1", "A"), ("step2", "B")] ∧
    (preInitImage [("step2", "B"), ("step1", "A")]
        ((sortedKeys [("step2", "B"), ("step1", "A")]).enum)
        ⟨[("step2", "B"), ("step1", "A")], [], "u", "explain5"⟩).frames.getD 0 none
      = some ⟨lookupD [("step2", "B"), ("step1", "A")]
          ((sortedKeys [("step2", "B"), ("step1", "A")]).getD 0 ""), none, none⟩ :=
  ⟨frame_order_lexical.1 _ _ (by decide),
   frame_order_lexical.2.1 _ "u" "explain5" 0 (by decide)⟩

/-- C5 counterexample: a POST to the image-stage handler with a well-formed
but unknown session id is answered with 400, not 404. -/
theorem unknown_session_404_counterexample :
    (imageGenHandler (fun _ _ => .ok) (fun _ => true) "b" "POST"
      (some "missing") []).status = 400 ∧
    (imageGenHandler (fun _ _ => .ok) (fun _ => true) "b" "POST"
      (some "missing") []).status ≠ 404 := by
  constructor
  · rfl
  · decide

/-- C5 amended: a GET of an unknown session id returns 404, while a POST
triggering either pipeline stage with an unknown session id returns 400 with
the message `Session not found`. -/
theorem unknown_session_statuses (st : Store) (sid : String)
    (gen : Nat → Nat → GenOutcome) (upl : Nat → Bool)
    (tts : Nat → TtsOutcome) (uplA : Nat → Bool) (bucket : String)
    (hsid : sid ≠ "") (hnone : getSession st sid = none) :
    (tutorialGet (some sid) st).status = 404 ∧
    imageGenHandler gen upl bucket "POST" (some sid) st
      = ⟨400, some "Session not found", [], st⟩ ∧
    audioGenHandler tts uplA bucket "POST" (some sid) st
      = ⟨400, some "Session not found", [], st⟩ := by
  refine ⟨?_, ?_, ?_⟩
  · simp [tutorialGet, hsid, hnone]
  · simp [imageGenHandler, hsid, hnone]
  · simp [audioGenHandler, hsid, hnone]

/-- Witness for C5 amended at the empty store and session id `missing`. -/
theorem unknown_session_statuses_witness :
    (tutorialGet (some "missing") []).status = 404 ∧
    imageGenHandler (fun _ _ => .ok) (fun _ => true) "b" "POST"
      (some "missing") [] = ⟨400, some "Session not found", [], []⟩ ∧
    audioGenHandler (fun _ => .ok) (fun _ => true) "b" "POST"
      (some "missing") [] = ⟨400, some "Session not found", [], []⟩ :=
  unknown_session_statuses [] "missing" (fun _ _ => .ok) (fun _ => true)
    (fun _ => .ok) (fun _ => true) "b" (by decide) rfl

/-- C7: when direct JSON parsing of a generation reply fails, the largest
brace-delimited substring (first opening brace to last closing brace) is
extracted and parsed instead, so an object wrapped in prose still yields a
storyboard; a reply with no such substring raises the fatal
`Claude output was not valid JSON` error. -/
theorem storyboard_reply_fallback
    (pj : String → Except String (List (String × String)))
    (reply e : String) (hdirect : pj reply = .error e) :
    (∀ sub sb, extractBraced reply = some sub → pj sub = .ok sb →
      parseStoryboardReply pj reply = .ok sb) ∧
    (extractBraced reply = none →
      parseStoryboardReply pj reply = .error "Claude output was not valid JSON") := by
  constructor
  · intro sub sb hex hsub
    simp [parseStoryboardReply, hdirect, hex, hsub]
  · intro hex
    simp [parseStoryboardReply, hdirect, hex]

/-- Witness for C7: a prose-wrapped object parses via extraction, and a reply
with no braces is fatal; the JSON engine is a test double recognizing exactly
the wrapped object. -/
theorem storyboard_reply_fallback_witness :
    parseStoryboardReply
      (fun s => if s = "\x7b\"step1\":\"x\"\x7d"
        then Except.ok [("step1", "x")] else Except.error "bad")
      "Here you go:\n\x7b\"step1\":\"x\"\x7d\nThanks" = .ok [("step1", "x")] ∧
    parseStoryboardReply
      (fun s => if s = "\x7b\"step1\":\"x\"\x7d"
        then Except.ok [("step1", "x")] else Except.error "bad")
      "no braces at all" = .error "Claude output was not valid JSON" := by
  constructor
  · exact (storyboard_reply_fallback
      (fun s => if s = "\x7b\"step1\":\"x\"\x7d"
        then Except.ok [("step1", "x")] else Except.error "bad")
      "Here you go:\n\x7b\"step1\":\"x\"\x7d\nThanks" "bad" rfl).1
      "\x7b\"step1\":\"x\"\x7d" [("step1", "x")] rfl rfl
  · exact (storyboard_reply_fallback
      (fun s => if s = "\x7b\"step1\":\"x\"\x7d"
        then Except.ok [("step1", "x")] else Except.error "bad")
      "no braces at all" "bad" rfl).2 rfl

/-- C10: a URL containing `github.com` that does not match the owner/repo
pattern makes the README fetcher swallow its own error and return the fixed
placeholder `This repository contains code files.`, which is below the
50-character minimum, so the create request fails with the 500
insufficient-content error and no session is created. -/
theorem github_nonrepo_url_500 (net : String → FetchOutcome)
    (web : String → WebOutcome) (htmlText : String → String)
    (claude : String → String → ClaudeOutcome)
    (pj : String → Except String (List (String × String)))
    (uuid : String) (style : Option String) (st : Store) (url : String)
    (hinc : includes url "github.com" = true)
    (hmatch : githubRepoMatch url = none) :
    fetchRepoContent net url = "This repository contains code files." ∧
    ("This repository contains code files." : String).length < 50 ∧
    tutorialPost net web htmlText claude pj uuid (some url) style st =
      ⟨500, some "Could not extract sufficient content from the URL", none, st⟩ := by
  have hne : url ≠ "" := by
    intro h
    subst h
    simp [includes, includesAux, List.isEmpty] at hinc
  have hfetch : fetchRepoContent net url = "This repository contains code files." := by
    simp [fetchRepoContent, hmatch]
  have hshort : ("This repository contains code files." : String).length < 50 := by
    decide
  refine ⟨hfetch, hshort, ?_⟩
  simp only [tutorialPost, hne, if_neg, postContent, hinc, if_true, hfetch]
  rw [if_pos (Or.inr hshort)]
  simp

/-- Witness for C10 at the URL `https://github.com/foo` (no repo segment). -/
theorem github_nonrepo_url_500_witness :
    fetchRepoContent (fun _ => .notOk) "https://github.com/foo"
      = "This repository contains code files." ∧
    ("This repository contains code files." : String).length < 50 ∧
    tutorialPost (fun _ => .notOk) (fun _ => .threw "no") (fun h => h)
      (fun _ _ => .nonText) (fun _ => .error "bad") "u1"
      (some "https://github.com/foo") none [] =
      ⟨500, some "Could not extract sufficient content from the URL", none, []⟩ :=
  github_nonrepo_url_500 (fun _ => .notOk) (fun _ => .threw "no") (fun h => h)
    (fun _ _ => .nonText) (fun _ => .error "bad") "u1" none []
    "https://github.com/foo" rfl rfl

/-- C8: every fatal condition of a create request — insufficient extracted
content, an unparseable storyboard reply, or a zero-key storyboard — is
answered with a 500 carrying a descriptive message, and the session store is
returned unchanged (no session is created). -/
theorem create_fatal_500 (net : String → FetchOutcome)
    (web : String → WebOutcome) (htmlText : String → String)
    (claude : String → String → ClaudeOutcome)
    (pj : String → Except String (List (String × String)))
    (uuid : String) (url : String) (style : Option String) (st : Store)
    (hurl : url ≠ "") :
    (∀ c, postContent net web htmlText url = .ok c →
      (c = "" ∨ c.length < 50) →
      tutorialPost net web htmlText claude pj uuid (some url) style st =
        ⟨500, some "Could not extract sufficient content from the URL", none, st⟩) ∧
    (∀ c reply msg, postContent net web htmlText url = .ok c →
      ¬(c = "" ∨ c.length < 50) →
      claude (buildClaudePrompt c style).1 (buildClaudePrompt c style).2 = .text reply →
      parseStoryboardReply pj reply = .error msg →
      tutorialPost net web htmlText claude pj uuid (some url) style st =
        ⟨500, some msg, none, st⟩) ∧
    (∀ c reply, postContent net web htmlText url = .ok c →
      ¬(c = "" ∨ c.length < 50) →
      claude (buildClaudePrompt c style).1 (buildClaudePrompt c style).2 = .text reply →
      parseStoryboardReply pj reply = .ok [] →
      tutorialPost net web htmlText claude pj uuid (some url) style st =
        ⟨500, some "Claude did not generate any storyboard steps", none, st⟩) := by
  refine ⟨?_, ?_, ?_⟩
  · intro c hc hshort
    simp only [tutorialPost, hurl, if_neg, hc]
    rw [if_pos hshort]
    simp
  · intro c reply msg hc hlong hcl hparse
    simp only [tutorialPost, hurl, if_neg, hc]
    rw [if_neg hlong]
    simp only [hcl, hparse]
    simp
  · intro c reply hc hlong hcl hparse
    simp only [tutorialPost, hurl, if_neg, hc]
    rw [if_neg hlong]
    simp only [hcl, hparse]
    simp

/-- Witness for C8: three concrete create requests, one per fatal condition. -/
theorem create_fatal_500_witness :
    tutorialPost (fun _ => .notOk) (fun _ => .threw "no") (fun h => h)
      (fun _ _ => .nonText) (fun _ => .error "bad") "u1"
      (some "https://github.com/foo") none [] =
      ⟨500, some "Could not extract sufficient content from the URL", none, []⟩ ∧
    tutorialPost (fun _ => .notOk)
      (fun _ => .html "aaaaaaaaaaaaaaaaaaaaaaaaaaaaaaaaaaaaaaaaaaaaaaaaaaaaaaaaaaaa")
      (fun h => h) (fun _ _ => .text "no braces") (fun _ => .error "x") "u1"
      (some "http://x.example") none [] =
      ⟨500, some "Claude output was not valid JSON", none, []⟩ ∧
    tutorialPost (fun _ => .notOk)
      (fun _ => .html "aaaaaaaaaaaaaaaaaaaaaaaaaaaaaaaaaaaaaaaaaaaaaaaaaaaaaaaaaaaa")
      (fun h => h) (fun _ _ => .text "whatever") (fun _ => .ok []) "u1"
      (some "http://x.example") none [] =
      ⟨500, some "Claude did not generate any storyboard steps", none, []⟩ := by
  refine ⟨?_, ?_, ?_⟩
  · exact (create_fatal_500 (fun _ => .notOk) (fun _ => .threw "no") (fun h => h)
      (fun _ _ => .nonText) (fun _ => .error "bad") "u1" "https://github.com/foo"
      none [] (by decide)).1 "This repository contains code files." rfl (by decide)
  · exact (create_fatal_500 (fun _ => .notOk)
      (fun _ => .html "aaaaaaaaaaaaaaaaaaaaaaaaaaaaaaaaaaaaaaaaaaaaaaaaaaaaaaaaaaaa")
      (fun h => h) (fun _ _ => .text "no braces") (fun _ => .error "x") "u1"
      "http://x.example" none [] (by decide)).2.1
      "aaaaaaaaaaaaaaaaaaaaaaaaaaaaaaaaaaaaaaaaaaaaaaaaaaaaaaaaaaaa"
      "no braces" "Claude output was not valid JSON" rfl (by decide) rfl rfl
  · exact (create_fatal_500 (fun _ => .notOk)
      (fun _ => .html "aaaaaaaaaaaaaaaaaaaaaaaaaaaaaaaaaaaaaaaaaaaaaaaaaaaaaaaaaaaa")
      (fun h => h) (fun _ _ => .text "whatever") (fun _ => .ok []) "u1"
      "http://x.example" none [] (by decide)).2.2
      "aaaaaaaaaaaaaaaaaaaaaaaaaaaaaaaaaaaaaaaaaaaaaaaaaaaaaaaaaaaa"
      "whatever" rfl (by decide) rfl rfl

/-- C9 counterexample: a successful create request with an absent style
selects the generic clear instruction fragment for the prompt but records the
style tag `explain5`, whose fragment is different — so the recorded style is
not the tag that selected the prompt fragment. -/
theorem style_record_counterexample :
    styleHint none = "Explain in a clear and engaging manner." ∧
    styleHint (some "explain5") ≠ styleHint none ∧
    (tutorialPost
      (fun _ => .ok "0123456789012345678901234567890123456789012345678901234567")
      (fun _ => .threw "no") (fun h => h) (fun _ _ => .text "ignored")
      (fun _ => .ok [("step1", "t")]) "u1"
      (some "https://github.com/a/b") none []).status = 200 ∧
    getSession (tutorialPost
      (fun _ => .ok "0123456789012345678901234567890123456789012345678901234567")
      (fun _ => .threw "no") (fun h => h) (fun _ _ => .text "ignored")
      (fun _ => .ok [("step1", "t")]) "u1"
      (some "https://github.com/a/b") none []).store "u1" =
      some ⟨[("step1", "t")], [], "https://github.com/a/b", "explain5"⟩ := by
  refine ⟨rfl, by decide, rfl, by decide⟩

/-- C9 amended: a recognized style tag is recorded verbatim and selects its
own instruction fragment; an absent or empty style selects the generic clear
fragment but is recorded as `explain5`; an unrecognized style selects the
generic clear fragment but is recorded verbatim. On every successful create
request the recorded style is `style || 'explain5'`. -/
theorem style_record_amended :
    (∀ s, s ∈ ["explain5", "frat", "pizza", "car", "professional"] →
      recordStyle (some s) = s) ∧
    (recordStyle none = "explain5" ∧
      styleHint none = "Explain in a clear and engaging manner.") ∧
    (∀ s, s ∉ ["explain5", "frat", "pizza", "car", "professional"] → s ≠ "" →
      recordStyle (some s) = s ∧
      styleHint (some s) = "Explain in a clear and engaging manner.") ∧
    (∀ (net : String → FetchOutcome) (web : String → WebOutcome)
      (htmlText : String → String) (claude : String → String → ClaudeOutcome)
      (pj : String → Except String (List (String × String)))
      (uuid url : String) (style : Option String) (st : Store)
      (c reply : String) (sb : List (String × String)),
      url ≠ "" → postContent net web htmlText url = .ok c →
      ¬(c = "" ∨ c.length < 50) →
      claude (buildClaudePrompt c style).1 (buildClaudePrompt c style).2 = .text reply →
      parseStoryboardReply pj reply = .ok sb → sb ≠ [] →
      tutorialPost net web htmlText claude pj uuid (some url) style st =
        ⟨200, none, some uuid, createSession st uuid ⟨sb, [], url, recordStyle style⟩⟩) := by
  refine ⟨?_, ⟨rfl, rfl⟩, ?_, ?_⟩
  · intro s hs
    simp only [List.mem_cons, List.not_mem_nil, or_false] at hs
    rcases hs with h | h | h | h | h
    all_goals subst h
    all_goals rfl
  · intro s hs hne
    have h1 : s ≠ "explain5" := fun h => hs (by simp [h])
    have h2 : s ≠ "frat" := fun h => hs (by simp [h])
    have h3 : s ≠ "pizza" := fun h => hs (by simp [h])
    have h4 : s ≠ "car" := fun h => hs (by simp [h])
    have h5 : s ≠ "professional" := fun h => hs (by simp [h])
    constructor
    · simp [recordStyle, hne]
    · unfold styleHint
      split
      all_goals simp_all
  · intro net web htmlText claude pj uuid url style st c reply sb
      hurl hc hlong hcl hparse hsb
    simp only [tutorialPost, hurl, if_neg, hc]
    rw [if_neg hlong]
    simp only [hcl, hparse]
    rw [if_neg (fun h => hsb (List.length_eq_zero.mp h))]
    simp

/-- Witness for C9 amended: the recognized tag `frat`, the unrecognized tag
`weird`, and a concrete successful create request with an absent style. -/
theorem style_record_amended_witness :
    recordStyle (some "frat") = "frat" ∧
    (recordStyle (some "weird") = "weird" ∧
      styleHint (some "weird") = "Explain in a clear and engaging manner.") ∧
    tutorialPost
      (fun _ => .ok "0123456789012345678901234567890123456789012345678901234567")
      (fun _ => .threw "no") (fun h => h) (fun _ _ => .text "ignored")
      (fun _ => .ok [("step1", "t")]) "u1"
      (some "https://github.com/a/b") none [] =
      ⟨200, none, some "u1", createSession [] "u1"
        ⟨[("step1", "t")], [], "https://github.com/a/b", recordStyle none⟩⟩ := by
  refine ⟨style_record_amended.1 "frat" (by simp), ?_, ?_⟩
  · exact style_record_amended.2.2.1 "weird" (by decide) (by decide)
  · exact style_record_amended.2.2.2
      (fun _ => .ok "0123456789012345678901234567890123456789012345678901234567")
      (fun _ => .threw "no") (fun h => h) (fun _ _ => .text "ignored")
      (fun _ => .ok [("step1", "t")]) "u1" "https://github.com/a/b" none []
      "0123456789012345678901234567890123456789012345678901234567" "ignored"
      [("step1", "t")] (by decide) rfl (by decide) rfl rfl (by decide)

/-! ### Per-slot characterization of the stage loops -/

/-- Evaluation of the audio-stage success merge: text is overwritten with the
storyboard text, the image URL is kept from the existing frame (absent slots
contribute none), and the audio URL is set. -/
theorem audio_merge_eval (s : Session) (i : Nat) (t u : String) :
    (baseFrame s i).merge
      ⟨some t, ((s.frames.getD i none).getD ⟨t, none, none⟩).imageUrl, some u⟩
      = ⟨t, ((s.frames.getD i none).getD ⟨t, none, none⟩).imageUrl, some u⟩ := by
  cases h : s.frames.getD i none with
  | none =>
    unfold baseFrame
    rw [h]
    rfl
  | some f =>
    unfold baseFrame
    rw [h]
    cases hf : f.imageUrl with
    | none => simp [Frame.merge, hf]
    | some u2 => simp [Frame.merge, hf]

/-- A slot whose index is processed by no remaining audio step is untouched by
the audio-stage main loop. -/
theorem audioStageSteps_unchanged (tts : Nat → TtsOutcome) (upl : Nat → Bool)
    (bucket sid : String) (sb : List (String × String)) :
    ∀ (ks : List (Nat × String)) (s : Session) (acc : List String) (j : Nat),
      (∀ ik ∈ ks, ik.1 ≠ j) →
      (audioStageSteps tts upl bucket sid sb ks s acc).1.frames.getD j none
        = s.frames.getD j none := by
  intro ks
  induction ks with
  | nil => intro s acc j _; rfl
  | cons ik rest ih =>
    intro s acc j hnj
    have hne : ik.1 ≠ j := hnj ik (by simp)
    simp only [audioStageSteps]
    cases tts ik.1 with
    | err msg => exact ih s acc j (fun jk hj => hnj jk (by simp [hj]))
    | ok =>
      by_cases hup : upl ik.1
      · rw [if_pos hup]
        rw [ih _ _ j (fun jk hj => hnj jk (by simp [hj])), updateFrame_getD,
          if_neg hne]
      · rw [if_neg hup]
        exact ih s acc j (fun jk hj => hnj jk (by simp [hj]))

/-- The frame at a processed audio-stage index: on success the slot becomes
the storyboard text plus the kept image URL plus the new audio URL; on a
failed synthesis or upload the slot is untouched. -/
theorem audioStageSteps_at (tts : Nat → TtsOutcome) (upl : Nat → Bool)
    (bucket sid : String) (sb : List (String × String)) :
    ∀ (ks : List (Nat × String)) (s : Session) (acc : List String)
      (j : Nat) (k2 : String), (j, k2) ∈ ks → (ks.map Prod.fst).Nodup →
      (audioStageSteps tts upl bucket sid sb ks s acc).1.frames.getD j none
        = if audioStepOk tts upl j = true then
            some ⟨lookupD sb k2,
              ((s.frames.getD j none).getD ⟨lookupD sb k2, none, none⟩).imageUrl,
              some (s3Url bucket sid j "mp3")⟩
          else s.frames.getD j none := by
  intro ks
  induction ks with
  | nil => intro s acc j k2 hmem; simp at hmem
  | cons ik rest ih =>
    obtain ⟨i1, k1⟩ := ik
    intro s acc j k2 hmem hnd
    have hnd' : (i1 :: rest.map Prod.fst).Nodup := by simpa using hnd
    have hnd2 : (rest.map Prod.fst).Nodup := hnd'.of_cons
    have hhead : i1 ∉ rest.map Prod.fst := (List.nodup_cons.mp hnd').1
    rcases List.mem_cons.mp hmem with h1 | h1
    · -- the head step is exactly (j, k2)
      injection h1 with e1 e2
      subst e1
      subst e2
      have hrest : ∀ jk ∈ rest, jk.1 ≠ j := by
        intro jk hjk h
        exact hhead (List.mem_map.mpr ⟨jk, hjk, h⟩)
      simp only [audioStageSteps]
      cases htts : tts j with
      | err msg =>
        rw [audioStageSteps_unchanged tts upl bucket sid sb rest s acc j hrest]
        simp [audioStepOk, ttsOk, htts]
      | ok =>
        by_cases hup : upl j
        · rw [if_pos hup]
          rw [audioStageSteps_unchanged tts upl bucket sid sb rest _ _ j hrest,
            updateFrame_getD, if_pos rfl, audio_merge_eval]
          simp [audioStepOk, ttsOk, htts, hup]
        · rw [if_neg hup]
          rw [audioStageSteps_unchanged tts upl bucket sid sb rest s acc j hrest]
          simp [audioStepOk, ttsOk, htts, hup]
    · -- the head step has a different index
      have hne : i1 ≠ j := by
        intro h
        exact hhead (List.mem_map.mpr ⟨(j, k2), h1, by simp [h]⟩)
      simp only [audioStageSteps]
      cases htts : tts i1 with
      | err msg => exact ih s acc j k2 h1 hnd2
      | ok =>
        by_cases hup : upl i1
        · rw [if_pos hup]
          rw [ih _ _ j k2 h1 hnd2, updateFrame_getD, if_neg hne]
        · rw [if_neg hup]
          exact ih s acc j k2 h1 hnd2

/-- Evaluation of the image-stage success merge: text is overwritten with the
storyboard text, the image URL is set, and the audio URL is kept. -/
theorem image_merge_eval (s : Session) (i : Nat) (t u : String) :
    (baseFrame s i).merge ⟨some t, some u, none⟩
      = ⟨t, some u, (baseFrame s i).audioUrl⟩ := rfl

/-- A slot whose index is processed by no remaining image step is untouched by
the image-stage main loop (also across a rate-limit abort). -/
theorem imageStageSteps_unchanged (gen : Nat → Nat → GenOutcome) (upl : Nat → Bool)
    (bucket sid : String) (sb : List (String × String)) :
    ∀ (ks : List (Nat × String)) (s : Session) (acc : List String) (j : Nat),
      (∀ ik ∈ ks, ik.1 ≠ j) →
      (imageStageSteps gen upl bucket sid sb ks s acc).1.frames.getD j none
        = s.frames.getD j none := by
  intro ks
  induction ks with
  | nil => intro s acc j _; rfl
  | cons ik rest ih =>
    intro s acc j hnj
    have hne : ik.1 ≠ j := hnj ik (by simp)
    simp only [imageStageSteps]
    cases hgen : imageGenAttempts (gen ik.1) with
    | rateLimited => rfl
    | skipped => exact ih s acc j (fun jk hj => hnj jk (by simp [hj]))
    | success =>
      by_cases hup : upl ik.1
      · rw [if_pos hup]
        rw [ih _ _ j (fun jk hj => hnj jk (by simp [hj])), updateFrame_getD,
          if_neg hne]
      · rw [if_neg hup]
        exact ih s acc j (fun jk hj => hnj jk (by simp [hj]))

/-- The frame at a processed image-stage index, in a rate-limit free run: on
success the slot gets the storyboard text and the image URL (keeping any audio
URL); on exhausted retries or a failed upload the slot is untouched. -/
theorem imageStageSteps_at (gen : Nat → Nat → GenOutcome) (upl : Nat → Bool)
    (bucket sid : String) (sb : List (String × String)) :
    ∀ (ks : List (Nat × String)) (s : Session) (acc : List String)
      (j : Nat) (k2 : String), (j, k2) ∈ ks → (ks.map Prod.fst).Nodup →
      (∀ ik ∈ ks, imageGenAttempts (gen ik.1) ≠ .rateLimited) →
      (imageStageSteps gen upl bucket sid sb ks s acc).1.frames.getD j none
        = if imageStepOk gen upl j = true then
            some ⟨lookupD sb k2, some (s3Url bucket sid j "png"),
              (baseFrame s j).audioUrl⟩
          else s.frames.getD j none := by
  intro ks
  induction ks with
  | nil => intro s acc j k2 hmem; simp at hmem
  | cons ik rest ih =>
    obtain ⟨i1, k1⟩ := ik
    intro s acc j k2 hmem hnd hnr
    have hnd' : (i1 :: rest.map Prod.fst).Nodup := by simpa using hnd
    have hnd2 : (rest.map Prod.fst).Nodup := hnd'.of_cons
    have hhead : i1 ∉ rest.map Prod.fst := (List.nodup_cons.mp hnd').1
    have hnr2 : ∀ ik ∈ rest, imageGenAttempts (gen ik.1) ≠ .rateLimited :=
      fun ik hik => hnr ik (by simp [hik])
    rcases List.mem_cons.mp hmem with h1 | h1
    · injection h1 with e1 e2
      subst e1
      subst e2
      have hrest : ∀ jk ∈ rest, jk.1 ≠ j := by
        intro jk hjk h
        exact hhead (List.mem_map.mpr ⟨jk, hjk, h⟩)
      simp only [imageStageSteps]
      cases hgen : imageGenAttempts (gen j) with
      | rateLimited => exact absurd hgen (hnr (j, k2) (by simp))
      | skipped =>
        rw [imageStageSteps_unchanged gen upl bucket sid sb rest s acc j hrest]
        simp [imageStepOk, hgen]
      | success =>
        by_cases hup : upl j
        · rw [if_pos hup]
          rw [imageStageSteps_unchanged gen upl bucket sid sb rest _ _ j hrest,
            updateFrame_getD, if_pos rfl, image_merge_eval]
          simp [imageStepOk, hgen, hup]
        · rw [if_neg hup]
          rw [imageStageSteps_unchanged gen upl bucket sid sb rest s acc j hrest]
          simp [imageStepOk, hgen, hup]
    · have hne : i1 ≠ j := by
        intro h
        exact hhead (List.mem_map.mpr ⟨(j, k2), h1, by simp [h]⟩)
      simp only [imageStageSteps]
      cases hgen : imageGenAttempts (gen i1) with
      | rateLimited => exact absurd hgen (hnr (i1, k1) (by simp))
      | skipped => exact ih s acc j k2 h1 hnd2 hnr2
      | success =>
        by_cases hup : upl i1
        · rw [if_pos hup]
          rw [ih _ _ j k2 h1 hnd2 hnr2, updateFrame_getD, if_neg hne]
          by_cases hok : imageStepOk gen upl j = true
          · rw [if_pos hok, if_pos hok]
            have : baseFrame (s.updateFrame i1 ⟨some (lookupD sb k1),
                some (s3Url bucket sid i1 "png"), none⟩) j = baseFrame s j := by
              unfold baseFrame
              rw [updateFrame_getD, if_neg hne]
            rw [this]
          · rw [if_neg hok, if_neg hok]
        · rw [if_neg hup]
          exact ih s acc j k2 h1 hnd2 hnr2

/-- Hitting a rate-limit classified failure at a step abandons every later
step of the image stage: the run over a list with a rate-limited step equals
the run over the prefix before that step. -/
theorem imageStageSteps_stop (gen : Nat → Nat → GenOutcome) (upl : Nat → Bool)
    (bucket sid : String) (sb : List (String × String)) :
    ∀ (ks1 : List (Nat × String)) (ik : Nat × String) (ks2 : List (Nat × String))
      (s : Session) (acc : List String),
      (∀ jk ∈ ks1, imageGenAttempts (gen jk.1) ≠ .rateLimited) →
      imageGenAttempts (gen ik.1) = .rateLimited →
      imageStageSteps gen upl bucket sid sb (ks1 ++ ik :: ks2) s acc
        = imageStageSteps gen upl bucket sid sb ks1 s acc := by
  intro ks1
  induction ks1 with
  | nil =>
    intro ik ks2 s acc _ hrl
    simp only [List.nil_append, imageStageSteps, hrl]
  | cons jk rest ih =>
    intro ik ks2 s acc hnr hrl
    have hj : imageGenAttempts (gen jk.1) ≠ .rateLimited := hnr jk (by simp)
    simp only [List.cons_append, imageStageSteps]
    cases hgen : imageGenAttempts (gen jk.1) with
    | rateLimited => exact absurd hgen hj
    | skipped => exact ih ik ks2 s acc (fun x hx => hnr x (by simp [hx])) hrl
    | success =>
      by_cases hup : upl jk.1
      · rw [if_pos hup, if_pos hup]
        exact ih ik ks2 _ _ (fun x hx => hnr x (by simp [hx])) hrl
      · rw [if_neg hup, if_neg hup]
        exact ih ik ks2 s acc (fun x hx => hnr x (by simp [hx])) hrl

/-- Enumeration distributes over append. -/
theorem enumFrom_append {α : Type} :
    ∀ (l1 l2 : List α) (n : Nat),
      (l1 ++ l2).enumFrom n = l1.enumFrom n ++ l2.enumFrom (n + l1.length) := by
  intro l1
  induction l1 with
  | nil => intro l2 n; simp [List.enumFrom]
  | cons a tl ih =>
    intro l2 n
    have harith : n + 1 + tl.length = n + (a :: tl).length := by
      simp only [List.length_cons]
      omega
    calc ((a :: tl) ++ l2).enumFrom n
        = (n, a) :: ((tl ++ l2).enumFrom (n + 1)) := rfl
      _ = (n, a) :: (tl.enumFrom (n + 1) ++ l2.enumFrom (n + 1 + tl.length)) := by
          rw [ih l2 (n + 1)]
      _ = (a :: tl).enumFrom n ++ l2.enumFrom (n + (a :: tl).length) := by
          rw [harith]
          rfl

/-- The indices of an enumeration are distinct. -/
theorem enumFrom_fst_nodup {α : Type} :
    ∀ (l : List α) (m : Nat), ((l.enumFrom m).map Prod.fst).Nodup := by
  intro l
  induction l with
  | nil => intro m; simp [List.enumFrom]
  | cons a tl ih =>
    intro m
    simp only [List.enumFrom, List.map_cons, List.nodup_cons]
    refine ⟨?_, ih (m + 1)⟩
    intro hmem
    obtain ⟨ik, hik, hfst⟩ := List.mem_map.mp hmem
    have := (mem_enumFrom_facts tl (m + 1) ik hik).1
    omega

/-- An index below the length occurs in the enumeration with its element. -/
theorem mem_enumFrom_getD {α : Type} (d : α) :
    ∀ (l : List α) (m j : Nat), j < l.length →
      (m + j, l.getD j d) ∈ l.enumFrom m := by
  intro l
  induction l with
  | nil => intro m j hj; simp at hj
  | cons a tl ih =>
    intro m j hj
    cases j with
    | zero =>
      simp only [List.enumFrom, List.mem_cons]
      left
      simp
    | succ i =>
      have hmem := ih (m + 1) i (by simpa using hj)
      simp only [List.enumFrom, List.mem_cons]
      right
      have harith : m + 1 + i = m + (i + 1) := by omega
      have h2 : (a :: tl).getD (i + 1) d = tl.getD i d := by simp
      rw [h2, ← harith]
      exact hmem

/-- Reading a take inside its range. -/
theorem getD_take_lt {α : Type} (d : α) :
    ∀ (l : List α) (k j : Nat), j < k →
      (l.take k).getD j d = l.getD j d := by
  intro l
  induction l with
  | nil => intro k j _; simp
  | cons a tl ih =>
    intro k j hj
    cases k with
    | zero => omega
    | succ n =>
      cases j with
      | zero => simp
      | succ i => simpa using ih n i (by omega)

/-- Splitting a list at an in-range index. -/
theorem take_cons_drop {α : Type} (d : α) :
    ∀ (l : List α) (k : Nat), k < l.length →
      l.take k ++ l.getD k d :: l.drop (k + 1) = l := by
  intro l
  induction l with
  | nil => intro k hk; simp at hk
  | cons a tl ih =>
    intro k hk
    cases k with
    | zero => simp
    | succ n => simpa using ih n (by simpa using hk)

/-- C3: in a rate-limit free image-stage run and in any audio-stage run on a
fresh session, every step's frame is materialized with its storyboard text,
and a step's artifact is present exactly when that step's own generation and
upload succeeded — a failing step (exhausted retries or failed upload) is
skipped and never prevents any other step's frame from being attempted and
materialized. -/
theorem step_failure_isolated (gen : Nat → Nat → GenOutcome) (upl : Nat → Bool)
    (tts : Nat → TtsOutcome) (uplA : Nat → Bool) (bucket sid url style : String)
    (sb : List (String × String)) (hvals : ∀ p ∈ sb, p.2 ≠ "")
    (hnr : ∀ i, imageGenAttempts (gen i) ≠ .rateLimited) :
    let keys := sortedKeys sb
    let simg := (runImageStage gen upl bucket sid ⟨sb, [], url, style⟩).1
    let saud := (runAudioStage tts uplA bucket sid ⟨sb, [], url, style⟩).1
    (simg.frames.length = sb.length ∧ ∀ j < sb.length,
      simg.frames.getD j none = some ⟨lookupD sb (keys.getD j ""),
        if imageStepOk gen upl j = true then some (s3Url bucket sid j "png") else none,
        none⟩ ∧ lookupD sb (keys.getD j "") ≠ "") ∧
    (saud.frames.length = sb.length ∧ ∀ j < sb.length,
      saud.frames.getD j none = some ⟨lookupD sb (keys.getD j ""),
        none,
        if audioStepOk tts uplA j = true then some (s3Url bucket sid j "mp3") else none⟩ ∧
        lookupD sb (keys.getD j "") ≠ "") := by
  intro keys simg saud
  have hne := sortedKeys_lookup_ne hvals
  have hkl : keys.length = sb.length := sortedKeys_length sb
  have hnd : ((keys.enum).map Prod.fst).Nodup := by
    simpa [List.enum] using enumFrom_fst_nodup keys 0
  -- facts about the image-stage pre-initialized session
  have hpreI : (preInitImage sb (keys.enum) ⟨sb, [], url, style⟩).frames
      = keys.map (fun k => some ⟨lookupD sb k, none, none⟩) := by
    simpa [List.enum] using
      preInitImage_fresh sb keys 0 ⟨sb, [], url, style⟩ rfl
  have hpreA : (preInitAudio sb (keys.enum) ⟨sb, [], url, style⟩).frames
      = keys.map (fun k => some ⟨lookupD sb k, none, none⟩) := by
    simpa [List.enum] using
      preInitAudio_fresh sb keys 0 ⟨sb, [], url, style⟩ rfl
  have hgetI : ∀ j < sb.length,
      (preInitImage sb (keys.enum) ⟨sb, [], url, style⟩).frames.getD j none
        = some ⟨lookupD sb (keys.getD j ""), none, none⟩ := by
    intro j hj
    rw [hpreI]
    simpa using getD_map_lt (fun k => some (⟨lookupD sb k, none, none⟩ : Frame))
      keys j (by omega) none ""
  have hgetA : ∀ j < sb.length,
      (preInitAudio sb (keys.enum) ⟨sb, [], url, style⟩).frames.getD j none
        = some ⟨lookupD sb (keys.getD j ""), none, none⟩ := by
    intro j hj
    rw [hpreA]
    simpa using getD_map_lt (fun k => some (⟨lookupD sb k, none, none⟩ : Frame))
      keys j (by omega) none ""
  have hmemj : ∀ j < sb.length, (j, keys.getD j "") ∈ keys.enum := by
    intro j hj
    simpa [List.enum] using mem_enumFrom_getD "" keys 0 j (by omega)
  refine ⟨⟨?_, ?_⟩, ⟨?_, ?_⟩⟩
  -- image-stage frame count
  · have hinv := imageStageSteps_inv gen upl bucket sid sb (keys.enum)
      (preInitImage sb (keys.enum) ⟨sb, [], url, style⟩) []
      (fun ik hik => by
        rw [hpreI, List.length_map]
        have := (mem_enumFrom_facts keys 0 ik (by simpa [List.enum] using hik)).2.1
        omega)
      (fun ik hik =>
        hne ik.2 (mem_enumFrom_facts keys 0 ik (by simpa [List.enum] using hik)).2.2)
      (by
        rw [hpreI]
        intro of hof
        obtain ⟨k, hk, hof2⟩ := List.mem_map.mp hof
        exact ⟨⟨lookupD sb k, none, none⟩, hof2.symm ▸ rfl, hne k hk⟩)
    show (imageStageSteps gen upl bucket sid sb (keys.enum)
      (preInitImage sb (keys.enum) ⟨sb, [], url, style⟩) []).1.frames.length = sb.length
    rw [hinv.2.1, hpreI, List.length_map, hkl]
  -- image-stage frames
  · intro j hj
    have hat := imageStageSteps_at gen upl bucket sid sb (keys.enum)
      (preInitImage sb (keys.enum) ⟨sb, [], url, style⟩) [] j (keys.getD j "")
      (hmemj j hj) hnd (fun ik _ => hnr ik.1)
    have hbase : baseFrame (preInitImage sb (keys.enum) ⟨sb, [], url, style⟩) j
        = ⟨lookupD sb (keys.getD j ""), none, none⟩ := by
      unfold baseFrame
      rw [hgetI j hj]
      rfl
    refine ⟨?_, hne _ (by
      have := hmemj j hj
      exact (mem_enumFrom_facts keys 0 (j, keys.getD j "")
        (by simpa [List.enum] using this)).2.2)⟩
    show (imageStageSteps gen upl bucket sid sb (keys.enum)
      (preInitImage sb (keys.enum) ⟨sb, [], url, style⟩) []).1.frames.getD j none = _
    rw [hat, hbase]
    by_cases hok : imageStepOk gen upl j = true
    · rw [if_pos hok, if_pos hok]
    · rw [if_neg hok, if_neg hok, hgetI j hj]
  -- audio-stage frame count
  · have hinv := audioStageSteps_inv tts uplA bucket sid sb (keys.enum)
      (preInitAudio sb (keys.enum) ⟨sb, [], url, style⟩) []
      (fun ik hik => by
        rw [hpreA, List.length_map]
        have := (mem_enumFrom_facts keys 0 ik (by simpa [List.enum] using hik)).2.1
        omega)
      (fun ik hik =>
        hne ik.2 (mem_enumFrom_facts keys 0 ik (by simpa [List.enum] using hik)).2.2)
      (by
        rw [hpreA]
        intro of hof
        obtain ⟨k, hk, hof2⟩ := List.mem_map.mp hof
        exact ⟨⟨lookupD sb k, none, none⟩, hof2.symm ▸ rfl, hne k hk⟩)
    show (audioStageSteps tts uplA bucket sid sb (keys.enum)
      (preInitAudio sb (keys.enum) ⟨sb, [], url, style⟩) []).1.frames.length = sb.length
    rw [hinv.2.1, hpreA, List.length_map, hkl]
  -- audio-stage frames
  · intro j hj
    have hat := audioStageSteps_at tts uplA bucket sid sb (keys.enum)
      (preInitAudio sb (keys.enum) ⟨sb, [], url, style⟩) [] j (keys.getD j "")
      (hmemj j hj) hnd
    refine ⟨?_, hne _ (by
      have := hmemj j hj
      exact (mem_enumFrom_facts keys 0 (j, keys.getD j "")
        (by simpa [List.enum] using this)).2.2)⟩
    show (audioStageSteps tts uplA bucket sid sb (keys.enum)
      (preInitAudio sb (keys.enum) ⟨sb, [], url, style⟩) []).1.frames.getD j none = _
    rw [hat, hgetA j hj]
    by_cases hok : audioStepOk tts uplA j = true
    · rw [if_pos hok, if_pos hok]
      rfl
    · rw [if_neg hok, if_neg hok]

/-- Witness for C3: step 0's image generation fails on all three attempts
(non-rate-limit) and step 0's synthesis fails, yet step 1 still gets both
artifacts and step 0's frame is materialized with its text. -/
theorem step_failure_isolated_witness :
    (runImageStage (fun i _ => if i = 0 then GenOutcome.err false else .ok)
        (fun _ => true) "b" "s"
        ⟨[("step1", "a"), ("step2", "b")], [], "u", "explain5"⟩).1.frames.getD 0 none
      = some ⟨"a", none, none⟩ ∧
    (runImageStage (fun i _ => if i = 0 then GenOutcome.err false else .ok)
        (fun _ => true) "b" "s"
        ⟨[("step1", "a"), ("step2", "b")], [], "u", "explain5"⟩).1.frames.getD 1 none
      = some ⟨"b", some "https://b.s3.amazonaws.com/s/frame2.png", none⟩ ∧
    (runAudioStage (fun i => if i = 0 then TtsOutcome.err "boom" else .ok)
        (fun _ => true) "b" "s"
        ⟨[("step1", "a"), ("step2", "b")], [], "u", "explain5"⟩).1.frames.getD 0 none
      = some ⟨"a", none, none⟩ ∧
    (runAudioStage (fun i => if i = 0 then TtsOutcome.err "boom" else .ok)
        (fun _ => true) "b" "s"
        ⟨[("step1", "a"), ("step2", "b")], [], "u", "explain5"⟩).1.frames.getD 1 none
      = some ⟨"b", none, some "https://b.s3.amazonaws.com/s/frame2.mp3"⟩ := by
  have h := step_failure_isolated
    (fun i _ => if i = 0 then GenOutcome.err false else .ok) (fun _ => true)
    (fun i => if i = 0 then TtsOutcome.err "boom" else .ok) (fun _ => true)
    "b" "s" "u" "explain5" [("step1", "a"), ("step2", "b")] (by decide)
    (by
      intro i
      cases i with
      | zero => decide
      | succ n => simp [imageGenAttempts])
  refine ⟨?_, ?_, ?_, ?_⟩
  · exact ((h.1.2 0 (by decide)).1).trans (by decide)
  · exact ((h.1.2 1 (by decide)).1).trans (by decide)
  · exact ((h.2.2 0 (by decide)).1).trans (by decide)
  · exact ((h.2.2 1 (by decide)).1).trans (by decide)

/-- Pre-initialization only changes the frames field of a session. -/
theorem preInitImage_eq_withFrames (sb : List (String × String)) :
    ∀ (ks : List (Nat × String)) (s : Session),
      preInitImage sb ks s = { s with frames := (preInitImage sb ks s).frames } := by
  intro ks
  induction ks with
  | nil => intro s; rfl
  | cons ik rest ih =>
    intro s
    calc preInitImage sb (ik :: rest) s
        = preInitImage sb rest
            (s.updateFrame ik.1 ⟨some (lookupD sb ik.2), none, none⟩) := rfl
      _ = { s.updateFrame ik.1 ⟨some (lookupD sb ik.2), none, none⟩ with
            frames := (preInitImage sb rest
              (s.updateFrame ik.1 ⟨some (lookupD sb ik.2), none, none⟩)).frames } :=
          ih _
      _ = { s with frames := (preInitImage sb (ik :: rest) s).frames } := rfl

/-- Audio pre-initialization only changes the frames field of a session. -/
theorem preInitAudio_eq_withFrames (sb : List (String × String)) :
    ∀ (ks : List (Nat × String)) (s : Session),
      preInitAudio sb ks s = { s with frames := (preInitAudio sb ks s).frames } := by
  intro ks
  induction ks with
  | nil => intro s; rfl
  | cons ik rest ih =>
    intro s
    cases hslot : s.frames.getD ik.1 none with
    | some f =>
      calc preInitAudio sb (ik :: rest) s
          = preInitAudio sb rest s := by
            simp only [preInitAudio, List.foldl]
            rw [hslot]
        _ = { s with frames := (preInitAudio sb rest s).frames } := ih s
        _ = { s with frames := (preInitAudio sb (ik :: rest) s).frames } := by
            have : preInitAudio sb (ik :: rest) s = preInitAudio sb rest s := by
              simp only [preInitAudio, List.foldl]
              rw [hslot]
            rw [this]
    | none =>
      calc preInitAudio sb (ik :: rest) s
          = preInitAudio sb rest
              (s.updateFrame ik.1 ⟨some (lookupD sb ik.2), none, none⟩) := by
            simp only [preInitAudio, List.foldl]
            rw [hslot]
        _ = { s.updateFrame ik.1 ⟨some (lookupD sb ik.2), none, none⟩ with
              frames := (preInitAudio sb rest
                (s.updateFrame ik.1 ⟨some (lookupD sb ik.2), none, none⟩)).frames } :=
            ih _
        _ = { s with frames := (preInitAudio sb rest
              (s.updateFrame ik.1 ⟨some (lookupD sb ik.2), none, none⟩)).frames } := rfl
        _ = { s with frames := (preInitAudio sb (ik :: rest) s).frames } := by
            have : preInitAudio sb (ik :: rest) s = preInitAudio sb rest
                (s.updateFrame ik.1 ⟨some (lookupD sb ik.2), none, none⟩) := by
              simp only [preInitAudio, List.foldl]
              rw [hslot]
            rw [this]

/-- C2 counterexample: in the audio stage a failure whose message would be
classified as a rate limit (it contains `429`) on step 0 does not abandon the
remaining steps — step 1 still receives its audio artifact; the audio stage
has no retry loop and no rate-limit short-circuit. -/
theorem retry_policy_counterexample :
    ttsOk (TtsOutcome.err "429 rate limit") = false ∧
    includes "429 rate limit" "429" = true ∧
    (runAudioStage (fun i => if i = 0 then TtsOutcome.err "429 rate limit" else .ok)
        (fun _ => true) "b" "s"
        ⟨[("step1", "a"), ("step2", "b")], [], "u", "explain5"⟩).1.frames.getD 1 none
      = some ⟨"b", none, some "https://b.s3.amazonaws.com/s/frame2.mp3"⟩ := by
  refine ⟨rfl, by decide, by decide⟩

/-- C2 amended: in the image stage each step's generation is attempted up to
3 times, and a rate-limit classified failure at step k immediately abandons
steps k..N-1 (they keep only their pre-initialized text, no image artifact)
while steps before k keep exactly the artifacts their own outcomes produced;
the audio stage instead attempts each step's synthesis exactly once and never
short-circuits: every step's audio artifact presence depends only on that
step's own outcome. -/
theorem retry_and_ratelimit_policy (gen : Nat → Nat → GenOutcome)
    (upl : Nat → Bool) (tts : Nat → TtsOutcome) (uplA : Nat → Bool)
    (bucket sid url style : String) (sb : List (String × String))
    (hvals : ∀ p ∈ sb, p.2 ≠ "") (k : Nat) (hk : k < sb.length)
    (hrl : imageGenAttempts (gen k) = .rateLimited)
    (hpre : ∀ j < k, imageGenAttempts (gen j) ≠ .rateLimited) :
    let keys := sortedKeys sb
    let simg := (runImageStage gen upl bucket sid ⟨sb, [], url, style⟩).1
    let saud := (runAudioStage tts uplA bucket sid ⟨sb, [], url, style⟩).1
    (∀ j, k ≤ j → j < sb.length →
      simg.frames.getD j none = some ⟨lookupD sb (keys.getD j ""), none, none⟩) ∧
    (∀ j < k,
      simg.frames.getD j none = some ⟨lookupD sb (keys.getD j ""),
        if imageStepOk gen upl j = true then some (s3Url bucket sid j "png") else none,
        none⟩) ∧
    (∀ j < sb.length,
      saud.frames.getD j none = some ⟨lookupD sb (keys.getD j ""), none,
        if audioStepOk tts uplA j = true then some (s3Url bucket sid j "mp3")
        else none⟩) := by
  intro keys simg saud
  have hkl : keys.length = sb.length := sortedKeys_length sb
  have hne := sortedKeys_lookup_ne hvals
  have hpreI : (preInitImage sb (keys.enum) ⟨sb, [], url, style⟩).frames
      = keys.map (fun k => some ⟨lookupD sb k, none, none⟩) := by
    simpa [List.enum] using
      preInitImage_fresh sb keys 0 ⟨sb, [], url, style⟩ rfl
  have hs1 : preInitImage sb (keys.enum) ⟨sb, [], url, style⟩
      = ⟨sb, keys.map (fun k => some ⟨lookupD sb k, none, none⟩), url, style⟩ := by
    rw [preInitImage_eq_withFrames, hpreI]
  have hget : ∀ j < sb.length,
      (⟨sb, keys.map (fun k => some ⟨lookupD sb k, none, none⟩), url, style⟩
        : Session).frames.getD j none
        = some ⟨lookupD sb (keys.getD j ""), none, none⟩ := by
    intro j hj
    simpa using getD_map_lt (fun k => some (⟨lookupD sb k, none, none⟩ : Frame))
      keys j (by omega) none ""
  have hsplit : keys = keys.take k ++ keys.getD k "" :: keys.drop (k + 1) :=
    (take_cons_drop "" keys k (by omega)).symm
  have htklen : (keys.take k).length = k := by
    rw [List.length_take]
    omega
  have henum : keys.enum = (keys.take k).enumFrom 0 ++
      ((k, keys.getD k "") :: (keys.drop (k + 1)).enumFrom (k + 1)) := by
    show keys.enumFrom 0 = _
    conv_lhs => rw [hsplit]
    rw [enumFrom_append]
    congr 1
    rw [htklen, Nat.zero_add]
    rfl
  have hprefix_lt : ∀ jk ∈ (keys.take k).enumFrom 0, jk.1 < k := by
    intro jk hjk
    have := (mem_enumFrom_facts _ 0 jk hjk).2.1
    omega
  have hstop : imageStageSteps gen upl bucket sid sb (keys.enum)
      (⟨sb, keys.map (fun k => some ⟨lookupD sb k, none, none⟩), url, style⟩ : Session) []
      = imageStageSteps gen upl bucket sid sb ((keys.take k).enumFrom 0)
        ⟨sb, keys.map (fun k => some ⟨lookupD sb k, none, none⟩), url, style⟩ [] := by
    rw [henum]
    exact imageStageSteps_stop gen upl bucket sid sb ((keys.take k).enumFrom 0)
      (k, keys.getD k "") ((keys.drop (k + 1)).enumFrom (k + 1))
      ⟨sb, keys.map (fun k => some ⟨lookupD sb k, none, none⟩), url, style⟩ []
      (fun jk hjk => hpre jk.1 (hprefix_lt jk hjk)) hrl
  refine ⟨?_, ?_, ?_⟩
  -- steps at or after the rate-limited one: only the pre-initialized text
  · intro j hkj hj
    show (imageStageSteps gen upl bucket sid sb (keys.enum)
      (preInitImage sb (keys.enum) ⟨sb, [], url, style⟩) []).1.frames.getD j none = _
    rw [hs1, hstop,
      imageStageSteps_unchanged gen upl bucket sid sb _ _ _ j
        (fun jk hjk => by have := hprefix_lt jk hjk; omega),
      hget j hj]
  -- steps before the rate-limited one: their own outcome decides
  · intro j hj
    have hjlen : j < sb.length := by omega
    have hmem : (j, keys.getD j "") ∈ (keys.take k).enumFrom 0 := by
      have h0 := mem_enumFrom_getD "" (keys.take k) 0 j (by omega)
      rw [getD_take_lt "" keys k j hj] at h0
      simpa using h0
    have hbase : baseFrame
        ⟨sb, keys.map (fun k => some ⟨lookupD sb k, none, none⟩), url, style⟩ j
        = ⟨lookupD sb (keys.getD j ""), none, none⟩ := by
      unfold baseFrame
      rw [hget j hjlen]
      rfl
    show (imageStageSteps gen upl bucket sid sb (keys.enum)
      (preInitImage sb (keys.enum) ⟨sb, [], url, style⟩) []).1.frames.getD j none = _
    rw [hs1, hstop,
      imageStageSteps_at gen upl bucket sid sb ((keys.take k).enumFrom 0)
        ⟨sb, keys.map (fun k => some ⟨lookupD sb k, none, none⟩), url, style⟩ []
        j (keys.getD j "")
        hmem (enumFrom_fst_nodup _ 0)
        (fun ik hik => hpre ik.1 (hprefix_lt ik hik)),
      hbase]
    by_cases hok : imageStepOk gen upl j = true
    · rw [if_pos hok, if_pos hok]
    · rw [if_neg hok, if_neg hok, hget j hjlen]
  -- the audio stage never abandons a step
  · intro j hj
    have hpreA : (preInitAudio sb (keys.enum) ⟨sb, [], url, style⟩).frames
        = keys.map (fun k => some ⟨lookupD sb k, none, none⟩) := by
      simpa [List.enum] using
        preInitAudio_fresh sb keys 0 ⟨sb, [], url, style⟩ rfl
    have hsA : preInitAudio sb (keys.enum) ⟨sb, [], url, style⟩
        = ⟨sb, keys.map (fun k => some ⟨lookupD sb k, none, none⟩), url, style⟩ := by
      rw [preInitAudio_eq_withFrames, hpreA]
    have hmemj : (j, keys.getD j "") ∈ keys.enum := by
      simpa [List.enum] using mem_enumFrom_getD "" keys 0 j (by omega)
    show (audioStageSteps tts uplA bucket sid sb (keys.enum)
      (preInitAudio sb (keys.enum) ⟨sb, [], url, style⟩) []).1.frames.getD j none = _
    rw [hsA,
      audioStageSteps_at tts uplA bucket sid sb (keys.enum)
        ⟨sb, keys.map (fun k => some ⟨lookupD sb k, none, none⟩), url, style⟩ []
        j (keys.getD j "")
        hmemj (by simpa [List.enum] using enumFrom_fst_nodup keys 0),
      hget j hj]
    by_cases hok : audioStepOk tts uplA j = true
    · rw [if_pos hok, if_pos hok]
      rfl
    · rw [if_neg hok, if_neg hok]

/-- Witness for C2 amended: three steps, a rate-limit classified failure at
step 1 — step 0 keeps its image, steps 1 and 2 get text only, and the audio
stage still produces audio for every step. -/
theorem retry_and_ratelimit_policy_witness :
    (runImageStage (fun i _ => if i = 1 then GenOutcome.err true else .ok)
        (fun _ => true) "b" "s"
        ⟨[("step1", "a"), ("step2", "b"), ("step3", "c")], [], "u", "x"⟩).1.frames.getD 2 none
      = some ⟨"c", none, none⟩ ∧
    (runImageStage (fun i _ => if i = 1 then GenOutcome.err true else .ok)
        (fun _ => true) "b" "s"
        ⟨[("step1", "a"), ("step2", "b"), ("step3", "c")], [], "u", "x"⟩).1.frames.getD 0 none
      = some ⟨"a", some "https://b.s3.amazonaws.com/s/frame1.png", none⟩ ∧
    (runAudioStage (fun _ => TtsOutcome.ok) (fun _ => true) "b" "s"
        ⟨[("step1", "a"), ("step2", "b"), ("step3", "c")], [], "u", "x"⟩).1.frames.getD 2 none
      = some ⟨"c", none, some "https://b.s3.amazonaws.com/s/frame3.mp3"⟩ := by
  have h := retry_and_ratelimit_policy
    (fun i _ => if i = 1 then GenOutcome.err true else .ok) (fun _ => true)
    (fun _ => TtsOutcome.ok) (fun _ => true) "b" "s" "u" "x"
    [("step1", "a"), ("step2", "b"), ("step3", "c")] (by decide) 1 (by decide)
    (by decide)
    (by
      intro j hj
      have : j = 0 := by omega
      subst this
      decide)
  refine ⟨?_, ?_, ?_⟩
  · exact (h.1 2 (by decide) (by decide)).trans (by decide)
  · exact (h.2.1 0 (by decide)).trans (by decide)
  · exact (h.2.2 2 (by decide)).trans (by decide)

/-- Audio pre-initialization never touches a slot that is already present. -/
theorem preInitAudio_getD_some (sb : List (String × String)) :
    ∀ (ks : List (Nat × String)) (s : Session) (j : Nat) (f : Frame),
      s.frames.getD j none = some f →
      (preInitAudio sb ks s).frames.getD j none = some f := by
  intro ks
  induction ks with
  | nil => intro s j f h; exact h
  | cons ik rest ih =>
    intro s j f h
    simp only [preInitAudio, List.foldl]
    cases hslot : s.frames.getD ik.1 none with
    | some g => exact ih s j f h
    | none =>
      by_cases hij : ik.1 = j
      · rw [hij] at hslot
        rw [h] at hslot
        exact absurd hslot (by simp)
      · refine ih _ j f ?_
        rw [updateFrame_getD, if_neg hij]
        exact h

/-- C6 counterexample: the audio stage does modify a frame's existing text —
on a successful synthesis it overwrites the frame's text (here `custom`) with
the raw storyboard text (`orig`). -/
theorem audio_text_overwrite_counterexample :
    (runAudioStage (fun _ => TtsOutcome.ok) (fun _ => true) "b" "sess"
        ⟨[("step1", "orig")], [some ⟨"custom", some "img", none⟩], "u",
          "explain5"⟩).1.frames.getD 0 none
      = some ⟨"orig", some "img", some "https://b.s3.amazonaws.com/sess/frame1.mp3"⟩ ∧
    ("orig" : String) ≠ "custom" := by
  exact ⟨by decide, by decide⟩

/-- C6 amended: a frame's text is overwritten by the image stage (to a literal
copy of the raw storyboard text), by RephraseService, and also by the audio
stage: on a successful synthesis the audio stage rewrites the frame's text to
the raw storyboard text while keeping the frame's image URL; when the step's
synthesis or upload fails, and during its pre-initialization of already
present slots, the audio stage leaves the existing frame untouched. -/
theorem audio_stage_text_effect (tts : Nat → TtsOutcome) (uplA : Nat → Bool)
    (bucket sid : String) (sb : List (String × String)) (url style : String)
    (fl : List (Option Frame)) (hlen : fl.length = (sortedKeys sb).length)
    (j : Nat) (f : Frame) (hslot : fl.getD j none = some f)
    (hj : j < fl.length) :
    let keys := sortedKeys sb
    let saud := (runAudioStage tts uplA bucket sid ⟨sb, fl, url, style⟩).1
    (audioStepOk tts uplA j = true →
      saud.frames.getD j none = some ⟨lookupD sb (keys.getD j ""), f.imageUrl,
        some (s3Url bucket sid j "mp3")⟩) ∧
    (audioStepOk tts uplA j = false →
      saud.frames.getD j none = some f) := by
  intro keys saud
  have hs1slot : (preInitAudio sb (keys.enum) ⟨sb, fl, url, style⟩).frames.getD j none
      = some f := preInitAudio_getD_some sb (keys.enum) ⟨sb, fl, url, style⟩ j f hslot
  have hmemj : (j, keys.getD j "") ∈ keys.enum := by
    simpa [List.enum] using mem_enumFrom_getD "" keys 0 j
      (by show j < (sortedKeys sb).length; omega)
  have hat := audioStageSteps_at tts uplA bucket sid sb (keys.enum)
    (preInitAudio sb (keys.enum) ⟨sb, fl, url, style⟩) [] j (keys.getD j "")
    hmemj (by simpa [List.enum] using enumFrom_fst_nodup keys 0)
  constructor
  · intro hok
    show (audioStageSteps tts uplA bucket sid sb (keys.enum)
      (preInitAudio sb (keys.enum) ⟨sb, fl, url, style⟩) []).1.frames.getD j none = _
    rw [hat, if_pos hok, hs1slot]
    rfl
  · intro hok
    show (audioStageSteps tts uplA bucket sid sb (keys.enum)
      (preInitAudio sb (keys.enum) ⟨sb, fl, url, style⟩) []).1.frames.getD j none = _
    rw [hat, if_neg (by simp [hok]), hs1slot]

/-- Witness for C6 amended: one successful and one failing audio run over a
session whose only frame already has custom text and an image URL. -/
theorem audio_stage_text_effect_witness :
    (runAudioStage (fun _ => TtsOutcome.ok) (fun _ => true) "b" "sess"
        ⟨[("step1", "orig")], [some ⟨"custom", some "img", none⟩], "u",
          "explain5"⟩).1.frames.getD 0 none
      = some ⟨"orig", some "img", some "https://b.s3.amazonaws.com/sess/frame1.mp3"⟩ ∧
    (runAudioStage (fun _ => TtsOutcome.err "boom") (fun _ => true) "b" "sess"
        ⟨[("step1", "orig")], [some ⟨"custom", some "img", none⟩], "u",
          "explain5"⟩).1.frames.getD 0 none
      = some ⟨"custom", some "img", none⟩ := by
  constructor
  · have h := audio_stage_text_effect (fun _ => TtsOutcome.ok) (fun _ => true)
      "b" "sess" [("step1", "orig")] "u" "explain5"
      [some ⟨"custom", some "img", none⟩] (by decide) 0
      ⟨"custom", some "img", none⟩ (by decide) (by decide)
    exact (h.1 (by decide)).trans (by decide)
  · have h := audio_stage_text_effect (fun _ => TtsOutcome.err "boom") (fun _ => true)
      "b" "sess" [("step1", "orig")] "u" "explain5"
      [some ⟨"custom", some "img", none⟩] (by decide) 0
      ⟨"custom", some "img", none⟩ (by decide) (by decide)
    exact h.2 (by decide)

end Tutorialize
